import Mathlib

/-!
Reward sessions of `server.js`.

A shallow embedding of the three request handlers of `src/server.js`
(`POST /reward/start`, `POST /reward/confirm`, `GET /reward/status/:sessionId`)
and of the in-memory `rewardSessions` map they share.

Modelling conventions.

* The JavaScript `Map` is a list of key/value entries in insertion order.  The
  functions on it do not require the keys to be distinct; that the keys of a
  real `Map` are distinct is part of the invariant `WF`, which every store
  reachable from the empty one satisfies (`wf_of_reachable`).
* A handler runs to completion without yielding, so every clock read made
  during one invocation (`Date.now()`, `new Date()`) is the same instant
  `now`, in milliseconds since the epoch.
* `Math.random().toString(36).substr(2, 9)` is the argument `rnd`.
* JSON numbers are exact rationals; a body field that is missing is `none`.
  The code computes on IEEE doubles.  For a clock value in `clockInRange` the
  test of the elapsed time against the minimum comes out the same on doubles
  as on rationals, and so does the rounded elapsed time when `adStartTime` is
  at most `2 ^ 53`.
* `rewardStart` and `rewardConfirm` are the handlers from the point where
  `req.body` is an object; `postRewardStart` and `postRewardConfirm` are the
  whole handlers, with the 500 answer of the `catch` when `req.body` is
  `undefined`.
* Logging (`console.log`, `console.warn`) is not modelled.
-/

namespace RewardServer

/-! ## Values -/

/-- The values a creation time can hold: the client's `timestamp` as it came
in the body, or the ISO string the server wrote itself. -/
inductive TimeVal
  /-- a JSON number, which `new Date(n)` reads as epoch milliseconds -/
  | num (ms : Int)
  /-- a date string that `new Date(s)` parses to the instant `ms` -/
  | iso (ms : Int)
  /-- a string that `new Date(s)` cannot parse -/
  | bad (s : String)
deriving DecidableEq, Repr

/-- JavaScript truthiness of a creation-time value: `0` and `""` are falsy. -/
def TimeVal.truthy : TimeVal → Bool
  | .num ms => ms != 0
  | .iso _ => true
  | .bad s => s != ""

/-- Largest time value a `Date` can hold, in milliseconds (ECMAScript
time range, 8.64e15). -/
def maxDate : Int := 8640000000000000

/-- Model of `new Date(v).getTime()`; `none` stands for `NaN`. -/
def TimeVal.getTime : TimeVal → Option Int
  | .num ms => if -maxDate ≤ ms ∧ ms ≤ maxDate then some ms else none
  | .iso ms => some ms
  | .bad _ => none

/-- JavaScript `a < b` where `a` may be `NaN`: a comparison with `NaN` is false. -/
def nanLt (a : Option Int) (b : Int) : Bool :=
  match a with
  | some x => decide (x < b)
  | none => false

/-- JavaScript `b - a > c` where `a` may be `NaN`: a comparison with `NaN` is false. -/
def nanAgeGt (b : Int) (a : Option Int) (c : Int) : Bool :=
  match a with
  | some x => decide (b - x > c)
  | none => false

/-- JavaScript truthiness of a string-valued body field: missing and `""` are falsy. -/
def strTruthy : Option String → Option String
  | some s => if s = "" then none else some s
  | none => none

/-- JavaScript truthiness of a number-valued body field: missing and `0` are falsy. -/
def numTruthy : Option ℚ → Option ℚ
  | some q => if q = 0 then none else some q
  | none => none

/-- Model of `Math.round`: the nearest integer, halves going up. -/
def mathRound (q : ℚ) : Int := ⌊q + 1 / 2⌋

/-- A record of the `rewardSessions` map. -/
structure Session where
  sessionId : String
  pageKey : String
  userAgent : Option String
  createdAt : TimeVal
  confirmed : Bool
  confirmedAt : Option Int
  watchTime : Option ℚ
  adStartTime : Option ℚ
deriving DecidableEq

/-! ## The `rewardSessions` map -/

/-- The state of `rewardSessions`: its entries in insertion order. -/
abbrev Store := List (String × Session)

/-- Model of `Map.prototype.get`. -/
def mapGet : Store → String → Option Session
  | [], _ => none
  | (k, v) :: rest, id => if k = id then some v else mapGet rest id

/-- Model of `Map.prototype.set`: an existing key keeps its place and takes the
new value, a new key is appended. -/
def mapSet (m : Store) (id : String) (v : Session) : Store :=
  if (mapGet m id).isSome then m.map (fun e => (e.1, if e.1 = id then v else e.2))
  else m ++ [(id, v)]

/-- Model of `Map.prototype.delete`. -/
def mapDelete (m : Store) (id : String) : Store :=
  m.filter (fun e => e.1 != id)

/-! ## Requests and responses -/

/-- Body of `POST /reward/start`, with the `user-agent` header of the request. -/
structure StartBody where
  pageKey : Option String
  userAgent : Option String
  timestamp : Option TimeVal
  headerUserAgent : Option String

/-- Body of `POST /reward/confirm`. -/
structure ConfirmBody where
  sessionId : Option String
  pageKey : Option String
  watchTime : Option ℚ
  adStartTime : Option ℚ

/-- What a handler sends back. -/
inductive Response
  /-- 200 of `/reward/start` -/
  | started (sessionId : String)
  /-- 200 of `/reward/confirm` -/
  | confirmedOk (sessionId : String) (confirmedAt : Int) (watchTime : Option ℚ)
  /-- 200 of `/reward/status/:sessionId` -/
  | status (sessionId pageKey : String) (confirmed : Bool) (createdAt : TimeVal)
      (confirmedAt : Option Int)
  /-- 400, a required field is missing -/
  | missingField
  /-- 400, `watchTime` below the minimum -/
  | watchTooShort (watchTime : ℚ) (minimumRequired : ℚ)
  /-- 400, too little time elapsed since `adStartTime` -/
  | elapsedTooShort (elapsedTime : Int) (minimumRequired : ℚ)
  /-- 403 -/
  | forbidden
  /-- 404 -/
  | notFound
  /-- 409 -/
  | conflict
  /-- 410 -/
  | gone
  /-- 500, the answer of the `catch` block -/
  | serverError
deriving DecidableEq

/-- HTTP status code of a response. -/
def Response.code : Response → Nat
  | .started _ => 200
  | .confirmedOk _ _ _ => 200
  | .status _ _ _ _ _ => 200
  | .missingField => 400
  | .watchTooShort _ _ => 400
  | .elapsedTooShort _ _ => 400
  | .forbidden => 403
  | .notFound => 404
  | .conflict => 409
  | .gone => 410
  | .serverError => 500

/-! ## Handlers -/

/-- Model of `generateSessionId`: `session_${Date.now()}_${random part}`. -/
def generateSessionId (now : Int) (rnd : String) : String :=
  "session_" ++ toString now ++ "_" ++ rnd

/-- The clean-up loop of `/reward/start`: visit every entry of the map and
delete the key of each one created before `oneHourAgo`. -/
def sweep (m : Store) (now : Int) : Store :=
  let oneHourAgo := now - 60 * 60 * 1000
  m.foldl (fun acc e => if nanLt e.2.createdAt.getTime oneHourAgo then mapDelete acc e.1 else acc) m

/-- The object that `/reward/start` puts in the map: `userAgent || header`,
`timestamp || new Date().toISOString()`, `confirmed: false`, `confirmedAt: null`. -/
def newSession (sessionId pageKey : String) (body : StartBody) (now : Int) : Session :=
  { sessionId := sessionId
    pageKey := pageKey
    userAgent := (strTruthy body.userAgent).orElse (fun _ => body.headerUserAgent)
    createdAt := match body.timestamp with
      | some t => if t.truthy then t else .iso now
      | none => .iso now
    confirmed := false
    confirmedAt := none
    watchTime := none
    adStartTime := none }

/-- Model of the handler of `POST /reward/start` on a body that was parsed
(`req.body` is an object): the session is stored, then the clean-up loop runs. -/
def rewardStart (rewardSessions : Store) (now : Int) (rnd : String) (body : StartBody) :
    Response × Store :=
  match strTruthy body.pageKey with
  | none => (.missingField, rewardSessions)
  | some pageKey =>
    let sessionId := generateSessionId now rnd
    (.started sessionId,
      sweep (mapSet rewardSessions sessionId (newSession sessionId pageKey body now)) now)

/-- The constant `MINIMUM_WATCH_TIME`, in seconds. -/
def MINIMUM_WATCH_TIME : ℚ := 30

/-- The constant `maxAge` of `/reward/confirm`, in milliseconds. -/
def maxAge : Int := 10 * 60 * 1000

/-- Model of the handler of `POST /reward/confirm` on a body that was parsed
(`req.body` is an object).  The two nested `if`s on `watchTime` and on
`adStartTime` each become a `filter`: the branch is taken when the value is
there and too small. -/
def rewardConfirm (rewardSessions : Store) (now : Int) (body : ConfirmBody) :
    Response × Store :=
  match strTruthy body.sessionId, strTruthy body.pageKey with
  | some sessionId, some pageKey =>
    match mapGet rewardSessions sessionId with
    | none => (.notFound, rewardSessions)
    | some session =>
      if session.pageKey ≠ pageKey then (.forbidden, rewardSessions)
      else if session.confirmed then (.conflict, rewardSessions)
      else if nanAgeGt now session.createdAt.getTime maxAge then
        (.gone, mapDelete rewardSessions sessionId)
      else
        match body.watchTime.filter (fun watchTime : ℚ => watchTime < MINIMUM_WATCH_TIME) with
        | some watchTime => (.watchTooShort watchTime MINIMUM_WATCH_TIME, rewardSessions)
        | none =>
          match (numTruthy body.adStartTime).filter
              (fun adStartTime : ℚ => (now - adStartTime) / 1000 < MINIMUM_WATCH_TIME) with
          | some adStartTime =>
            (.elapsedTooShort (mathRound ((now - adStartTime) / 1000)) MINIMUM_WATCH_TIME,
              rewardSessions)
          | none =>
            (.confirmedOk sessionId now body.watchTime,
              mapSet rewardSessions sessionId
                { session with
                  confirmed := true
                  confirmedAt := some now
                  watchTime := numTruthy body.watchTime
                  adStartTime := numTruthy body.adStartTime })
  | _, _ => (.missingField, rewardSessions)

/-- The whole handler of `POST /reward/start`, from `req.body` as Express hands
it over.  When no body was parsed `req.body` is `undefined`, the destructuring
on the first line of the `try` block throws, and the `catch` answers 500
without having touched the map. -/
def postRewardStart (rewardSessions : Store) (now : Int) (rnd : String)
    (body : Option StartBody) : Response × Store :=
  match body with
  | none => (.serverError, rewardSessions)
  | some b => rewardStart rewardSessions now rnd b

/-- The whole handler of `POST /reward/confirm`, from `req.body` as Express
hands it over; without a parsed body the `catch` answers 500. -/
def postRewardConfirm (rewardSessions : Store) (now : Int) (body : Option ConfirmBody) :
    Response × Store :=
  match body with
  | none => (.serverError, rewardSessions)
  | some b => rewardConfirm rewardSessions now b

/-- Model of the handler of `GET /reward/status/:sessionId`. -/
def rewardStatus (rewardSessions : Store) (sessionId : String) : Response × Store :=
  match mapGet rewardSessions sessionId with
  | none => (.notFound, rewardSessions)
  | some session =>
    (.status session.sessionId session.pageKey session.confirmed session.createdAt
      session.confirmedAt, rewardSessions)

/-- Whether the clean-up loop of `/reward/start` deletes a session. -/
def tooOld (now : Int) (s : Session) : Bool :=
  nanLt s.createdAt.getTime (now - 60 * 60 * 1000)

/-- Whether a response reports success (status 200). -/
def Response.ok (r : Response) : Bool := r.code == 200

/-- The clock values a running server reads: at least one minute after the
epoch and inside the range of `Date`.  From one minute on, an `adStartTime`
less than 30 seconds back is at least half the clock value, so the
subtraction `now - adStartTime` is exact on doubles. -/
def clockInRange (now : Int) : Prop := 60 * 1000 ≤ now ∧ now ≤ maxDate

instance (now : Int) : Decidable (clockInRange now) := by
  unfold clockInRange; infer_instance

/-! ## The invariant of the store -/

/-- What holds of `rewardSessions` at all times: the keys are distinct (it is a
`Map`), no key is the empty string and no stored `pageKey` is the empty string. -/
def WF (m : Store) : Prop :=
  (m.map Prod.fst).Nodup ∧ ∀ e ∈ m, e.1 ≠ "" ∧ e.2.pageKey ≠ ""

instance (m : Store) : Decidable (WF m) := by
  unfold WF; infer_instance

/-- The stores the server can be in: the empty map at start-up, then whatever
the three handlers leave behind. -/
inductive Reachable : Store → Prop
  | init : Reachable []
  | start {m : Store} (h : Reachable m) (now : Int) (rnd : String) (body : StartBody) :
      Reachable (rewardStart m now rnd body).2
  | confirm {m : Store} (h : Reachable m) (now : Int) (body : ConfirmBody) :
      Reachable (rewardConfirm m now body).2
  | status {m : Store} (h : Reachable m) (sessionId : String) :
      Reachable (rewardStatus m sessionId).2

/-! ## Decimal strings -/

/-- Value of a list of decimal digit characters, most significant first. -/
def digitsValue (cs : List Char) : Nat :=
  cs.foldl (fun acc c => acc * 10 + (c.toNat - 48)) 0

/-! ## Sample data -/

/-- A `sessionId` of the shape `generateSessionId` produces. -/
def sampleId : String := "session_1700000000000_k3j9x2m1q"

/-- The session a start request for page `home` stores at time 1700000000000. -/
def sampleSession : Session :=
  { sessionId := sampleId
    pageKey := "home"
    userAgent := some "Mozilla/5.0"
    createdAt := .iso 1700000000000
    confirmed := false
    confirmedAt := none
    watchTime := none
    adStartTime := none }

/-- A store holding the sample session only. -/
def sampleStore : Store := [(sampleId, sampleSession)]

/-- A start request for page `home` whose `timestamp` is the number one
millisecond below the range of `Date`, which `new Date` reads as `NaN`. -/
def ancientBody : StartBody :=
  { pageKey := some "home", userAgent := none,
    timestamp := some (.num (-8640000000000001)), headerUserAgent := none }

/-- The store after that start request, made on the empty map at clock value
1700000000000 with random part `k3j9x2m1q`. -/
def ancientStore : Store := (rewardStart [] 1700000000000 "k3j9x2m1q" ancientBody).2

/-- A start request for page `shop` with nothing else in the body. -/
def shopBody : StartBody :=
  { pageKey := some "shop", userAgent := none, timestamp := none, headerUserAgent := none }

/-- A start request for page `home` with nothing else in the body. -/
def homeBody : StartBody :=
  { pageKey := some "home", userAgent := none, timestamp := none, headerUserAgent := none }

/-- The sample session once confirmed, in the millisecond of its creation. -/
def confirmedSession : Session :=
  { sampleSession with confirmed := true, confirmedAt := some 1700000000000 }

/-- A store holding the confirmed sample session only. -/
def confirmedStore : Store := [(sampleId, confirmedSession)]

/-! ## Coherence of a record -/

/-- The fields of a session agree with its `confirmed` flag: `confirmedAt` is
there exactly when the session is confirmed, and an unconfirmed session has
neither `watchTime` nor `adStartTime`. -/
def Coherent (s : Session) : Prop :=
  (s.confirmedAt.isSome = s.confirmed) ∧
    (s.confirmed = false → s.watchTime = none ∧ s.adStartTime = none)

/-! ## Facts about the map operations -/

theorem mapGet_append (m m' : Store) (k : String) :
    mapGet (m ++ m') k = (mapGet m k).orElse (fun _ => mapGet m' k) := by
  induction m with
  | nil => simp [mapGet]
  | cons e m ih =>
    obtain ⟨k', v⟩ := e
    by_cases h : k' = k <;> simp [mapGet, h, ih]

theorem mapGet_map_replace (m : Store) (id k : String) (v : Session) :
    mapGet (m.map (fun e => (e.1, if e.1 = id then v else e.2))) k
      = if k = id then (mapGet m k).map (fun _ => v) else mapGet m k := by
  induction m with
  | nil => simp [mapGet]
  | cons e m ih =>
    obtain ⟨k', v'⟩ := e
    simp only [List.map_cons, mapGet, ih]
    by_cases h3 : k' = k
    · subst h3
      by_cases h2 : k' = id <;> simp [h2]
    · simp [h3]

theorem mapGet_set_self (m : Store) (id : String) (v : Session) :
    mapGet (mapSet m id v) id = some v := by
  unfold mapSet
  cases h : mapGet m id with
  | none => simp [mapGet_append, h, mapGet]
  | some s => simp [mapGet_map_replace, h]

theorem mapGet_set_ne (m : Store) (id k : String) (v : Session) (hk : k ≠ id) :
    mapGet (mapSet m id v) k = mapGet m k := by
  unfold mapSet
  have hk' : ¬ id = k := fun h => hk h.symm
  cases h : mapGet m id with
  | none =>
    cases h2 : mapGet m k <;> simp [mapGet_append, h2, mapGet, hk']
  | some s => simp [mapGet_map_replace, hk]

theorem mapGet_delete (m : Store) (id k : String) :
    mapGet (mapDelete m id) k = if k = id then none else mapGet m k := by
  induction m with
  | nil => simp [mapDelete, mapGet]
  | cons e m ih =>
    obtain ⟨k', v'⟩ := e
    unfold mapDelete at ih ⊢
    rw [List.filter_cons]
    by_cases h1 : k' = id
    · subst h1
      by_cases h2 : k = k'
      · subst h2
        simpa using ih
      · have h3 : ¬ k' = k := fun h => h2 h.symm
        simpa [h2, mapGet, h3] using ih
    · by_cases h3 : k' = k
      · subst h3
        simp [h1, mapGet]
      · simp [h1, mapGet, ih, h3]

theorem mapGet_delete_self (m : Store) (id : String) : mapGet (mapDelete m id) id = none := by
  simp [mapGet_delete]

theorem mapGet_delete_ne (m : Store) (id k : String) (hk : k ≠ id) :
    mapGet (mapDelete m id) k = mapGet m k := by
  simp [mapGet_delete, hk]

theorem mem_of_mapGet {m : Store} {k : String} {s : Session} (h : mapGet m k = some s) :
    (k, s) ∈ m := by
  induction m with
  | nil => simp [mapGet] at h
  | cons e m ih =>
    obtain ⟨k', v'⟩ := e
    by_cases h1 : k' = k
    · simp [mapGet, h1] at h; simp [h1, h]
    · simp [mapGet, h1] at h; simp [ih h]

theorem mapGet_of_mem {m : Store} (hn : (m.map Prod.fst).Nodup) {k : String} {s : Session}
    (h : (k, s) ∈ m) : mapGet m k = some s := by
  induction m with
  | nil => simp at h
  | cons e m ih =>
    obtain ⟨k', v'⟩ := e
    simp only [List.map_cons, List.nodup_cons] at hn
    rcases List.mem_cons.1 h with h1 | h1
    · cases h1; simp [mapGet]
    · have : k' ≠ k := by
        rintro rfl
        exact hn.1 (List.mem_map.2 ⟨(k', s), h1, rfl⟩)
      simp [mapGet, this, ih hn.2 h1]

/-- Reading a key after the clean-up loop has run over the entries `l`. -/
theorem mapGet_foldl_delete (p : Session → Bool) (l acc : Store) (k : String) :
    mapGet (l.foldl (fun a e => if p e.2 then mapDelete a e.1 else a) acc) k
      = if l.any (fun e => decide (e.1 = k) && p e.2) then none else mapGet acc k := by
  induction l generalizing acc with
  | nil => simp
  | cons e l ih =>
    obtain ⟨k', v'⟩ := e
    simp only [List.foldl_cons, List.any_cons, ih]
    by_cases h1 : l.any (fun e => decide (e.1 = k) && p e.2) = true
    · simp [h1]
    · by_cases h2 : p v' = true
      · by_cases h3 : k' = k
        · simp [h1, h2, h3, mapGet_delete]
        · have h4 : ¬ k = k' := fun h => h3 h.symm
          simp [h1, h2, h3, h4, mapGet_delete]
      · simp [h1, h2]

theorem mapGet_sweep (m : Store) (hn : (m.map Prod.fst).Nodup) (now : Int) (k : String) :
    mapGet (sweep m now) k = (mapGet m k).filter (fun s => !tooOld now s) := by
  unfold sweep
  simp only []
  rw [mapGet_foldl_delete (fun s => nanLt s.createdAt.getTime (now - 60 * 60 * 1000)) m m k]
  cases h : mapGet m k with
  | none =>
    have : m.any (fun e => decide (e.1 = k) &&
        nanLt e.2.createdAt.getTime (now - 60 * 60 * 1000)) = false := by
      rw [List.any_eq_false]
      rintro ⟨k', s⟩ hmem
      by_cases h1 : k' = k
      · subst h1; rw [mapGet_of_mem hn hmem] at h; cases h
      · simp [h1]
    simp [this]
  | some s =>
    by_cases h1 : tooOld now s = true
    · have : m.any (fun e => decide (e.1 = k) &&
          nanLt e.2.createdAt.getTime (now - 60 * 60 * 1000)) = true := by
        rw [List.any_eq_true]
        exact ⟨(k, s), mem_of_mapGet h, by simpa [tooOld] using h1⟩
      rw [this]
      simp [Option.filter, h1]
    · have : m.any (fun e => decide (e.1 = k) &&
          nanLt e.2.createdAt.getTime (now - 60 * 60 * 1000)) = false := by
        rw [List.any_eq_false]
        rintro ⟨k', s'⟩ hmem
        by_cases h2 : k' = k
        · subst h2
          rw [mapGet_of_mem hn hmem] at h; cases h
          simpa [tooOld] using h1
        · simp [h2]
      rw [this]
      simp [Option.filter, h1]

/-- The clean-up loop only deletes: a key it leaves maps to what it mapped to. -/
theorem mapGet_sweep_cases (m : Store) (now : Int) (k : String) :
    mapGet (sweep m now) k = none ∨ mapGet (sweep m now) k = mapGet m k := by
  unfold sweep
  simp only []
  rw [mapGet_foldl_delete (fun s => nanLt s.createdAt.getTime (now - 60 * 60 * 1000)) m m k]
  split
  · exact Or.inl rfl
  · exact Or.inr rfl

theorem mapGet_set (m : Store) (id k : String) (v : Session) :
    mapGet (mapSet m id v) k = if k = id then some v else mapGet m k := by
  by_cases h : k = id
  · subst h; simp [mapGet_set_self]
  · simp [h, mapGet_set_ne _ _ _ _ h]

/-! ## The invariant is kept -/

theorem not_mem_keys_of_mapGet_none {m : Store} {k : String} (h : mapGet m k = none) :
    k ∉ m.map Prod.fst := by
  induction m with
  | nil => simp
  | cons e m ih =>
    obtain ⟨k', v'⟩ := e
    by_cases h1 : k' = k
    · simp [mapGet, h1] at h
    · simp only [mapGet, h1, if_false] at h
      simp only [List.map_cons, List.mem_cons, not_or]
      exact ⟨fun h2 => h1 h2.symm, ih h⟩

theorem wf_mapDelete {m : Store} (h : WF m) (id : String) : WF (mapDelete m id) := by
  refine ⟨?_, ?_⟩
  · exact h.1.sublist (List.Sublist.map _ (List.filter_sublist _))
  · intro e he
    exact h.2 e (List.mem_of_mem_filter he)

theorem wf_mapSet {m : Store} (h : WF m) {id : String} {v : Session} (hid : id ≠ "")
    (hv : v.pageKey ≠ "") : WF (mapSet m id v) := by
  unfold mapSet
  split
  · refine ⟨?_, ?_⟩
    · have : (m.map (fun e => (e.1, if e.1 = id then v else e.2))).map Prod.fst
          = m.map Prod.fst := by
        simp [List.map_map, Function.comp_def]
      rw [this]; exact h.1
    · intro e he
      obtain ⟨e0, he0, rfl⟩ := List.mem_map.1 he
      refine ⟨(h.2 e0 he0).1, ?_⟩
      by_cases h1 : e0.1 = id
      · simpa [h1] using hv
      · simpa [h1] using (h.2 e0 he0).2
  · rename_i hnone
    have hnone' : mapGet m id = none := by
      cases hg : mapGet m id with
      | none => rfl
      | some s => simp [hg] at hnone
    refine ⟨?_, ?_⟩
    · rw [List.map_append, List.nodup_append]
      refine ⟨h.1, by simp, ?_⟩
      intro a ha hb
      simp only [List.map_cons, List.map_nil, List.mem_singleton] at hb
      subst hb
      exact not_mem_keys_of_mapGet_none hnone' ha
    · intro e he
      rcases List.mem_append.1 he with h1 | h1
      · exact h.2 e h1
      · simp only [List.mem_singleton] at h1
        subst h1
        exact ⟨hid, hv⟩

theorem wf_foldl_delete (p : Session → Bool) (l : Store) {acc : Store} (h : WF acc) :
    WF (l.foldl (fun a e => if p e.2 then mapDelete a e.1 else a) acc) := by
  induction l generalizing acc with
  | nil => simpa using h
  | cons e l ih =>
    simp only [List.foldl_cons]
    apply ih
    split
    · exact wf_mapDelete h _
    · exact h

theorem wf_sweep {m : Store} (h : WF m) (now : Int) : WF (sweep m now) :=
  wf_foldl_delete (fun s => nanLt s.createdAt.getTime (now - 60 * 60 * 1000)) m h

theorem generateSessionId_ne_empty (now : Int) (rnd : String) :
    generateSessionId now rnd ≠ "" := by
  intro h
  have := congrArg String.length h
  simp [generateSessionId] at this
  exact absurd this.1.1.1 (by decide)

theorem strTruthy_some {o : Option String} {s : String} (h : strTruthy o = some s) :
    o = some s ∧ s ≠ "" := by
  cases o with
  | none => simp [strTruthy] at h
  | some t =>
    by_cases ht : t = ""
    · simp [strTruthy, ht] at h
    · simp [strTruthy, ht] at h
      subst h
      exact ⟨rfl, ht⟩

theorem wf_rewardStart {m : Store} (h : WF m) (now : Int) (rnd : String) (body : StartBody) :
    WF (rewardStart m now rnd body).2 := by
  unfold rewardStart
  split
  · exact h
  · rename_i pageKey hpk
    exact wf_sweep (wf_mapSet (v := newSession _ pageKey body now) h
      (generateSessionId_ne_empty now rnd) (strTruthy_some hpk).2) now

theorem wf_rewardConfirm {m : Store} (h : WF m) (now : Int) (body : ConfirmBody) :
    WF (rewardConfirm m now body).2 := by
  unfold rewardConfirm
  split
  · rename_i sessionId pageKey hsid hpk
    split
    · exact h
    · rename_i session hget
      have hs : session.pageKey ≠ "" := (h.2 _ (mem_of_mapGet hget)).2
      have hid := (strTruthy_some hsid).2
      split
      · exact h
      · split
        · exact h
        · split
          · exact wf_mapDelete h _
          · split
            · exact h
            · split
              · exact h
              · exact wf_mapSet h hid hs
  · exact h

theorem wf_rewardStatus {m : Store} (h : WF m) (sessionId : String) :
    WF (rewardStatus m sessionId).2 := by
  unfold rewardStatus
  split <;> exact h

/-- Every store the server can be in satisfies the invariant. -/
theorem wf_of_reachable {m : Store} (h : Reachable m) : WF m := by
  induction h with
  | init => exact ⟨by simp, by simp⟩
  | start _ now rnd body ih => exact wf_rewardStart ih now rnd body
  | confirm _ now body ih => exact wf_rewardConfirm ih now body
  | status _ sessionId ih => exact wf_rewardStatus ih sessionId

/-! ## The session id determines the clock value and the random part -/

theorem digitChar_props (d : Nat) (hd : d < 10) :
    (Nat.digitChar d).toNat - 48 = d ∧ Nat.digitChar d ≠ '_' ∧ Nat.digitChar d ≠ '-' := by
  interval_cases d <;> decide

theorem digitsValue_append_singleton (p : List Char) (c : Char) :
    digitsValue (p ++ [c]) = digitsValue p * 10 + (c.toNat - 48) := by
  simp [digitsValue, List.foldl_append]

theorem toDigitsCore_spec (fuel : Nat) : ∀ (n : Nat) (ds : List Char), n < fuel →
    ∃ p, Nat.toDigitsCore 10 fuel n ds = p ++ ds ∧ digitsValue p = n ∧
      (∀ c ∈ p, c ≠ '_' ∧ c ≠ '-') ∧ p ≠ [] := by
  induction fuel with
  | zero => intro n ds h; omega
  | succ fuel ih =>
    intro n ds h
    have hd := digitChar_props (n % 10) (Nat.mod_lt _ (by norm_num))
    unfold Nat.toDigitsCore
    by_cases h0 : n / 10 = 0
    · refine ⟨[Nat.digitChar (n % 10)], by simp [h0], ?_, ?_, by simp⟩
      · simp only [digitsValue, List.foldl_cons, List.foldl_nil, hd.1]
        omega
      · intro c hc
        simp only [List.mem_singleton] at hc
        subst hc
        exact hd.2
    · obtain ⟨p, hp, hv, hc, -⟩ := ih (n / 10) (Nat.digitChar (n % 10) :: ds) (by omega)
      refine ⟨p ++ [Nat.digitChar (n % 10)], by simp [h0, hp], ?_, ?_, by simp⟩
      · rw [digitsValue_append_singleton, hv, hd.1]
        omega
      · intro c hc'
        rcases List.mem_append.1 hc' with h1 | h1
        · exact hc c h1
        · simp only [List.mem_singleton] at h1
          subst h1
          exact hd.2

theorem natRepr_spec (n : Nat) :
    digitsValue (toString n).data = n ∧ (∀ c ∈ (toString n).data, c ≠ '_' ∧ c ≠ '-') ∧
      (toString n).data ≠ [] := by
  obtain ⟨p, hp, hv, hc, hne⟩ := toDigitsCore_spec (n + 1) n [] (by omega)
  have : (toString n).data = p := by
    show (Nat.repr n).data = p
    simp [Nat.repr, Nat.toDigits, hp, List.asString]
  rw [this]
  exact ⟨hv, hc, hne⟩

theorem intToString_data (z : Int) :
    (∃ n : Nat, z = n ∧ (toString z).data = (toString n).data) ∨
    (∃ n : Nat, z = Int.negSucc n ∧ (toString z).data = '-' :: (toString (n + 1)).data) := by
  cases z with
  | ofNat n => exact Or.inl ⟨n, rfl, rfl⟩
  | negSucc n => exact Or.inr ⟨n, rfl, rfl⟩

theorem intToString_no_underscore (z : Int) : '_' ∉ (toString z).data := by
  rcases intToString_data z with ⟨n, -, h⟩ | ⟨n, -, h⟩
  · rw [h]
    intro hm
    exact ((natRepr_spec n).2.1 _ hm).1 rfl
  · rw [h]
    intro hm
    rcases List.mem_cons.1 hm with h1 | h1
    · exact absurd h1 (by decide)
    · exact ((natRepr_spec (n + 1)).2.1 _ h1).1 rfl

theorem intToString_injective {a b : Int} (h : toString a = toString b) : a = b := by
  have hd : (toString a).data = (toString b).data := congrArg String.data h
  rcases intToString_data a with ⟨n, rfl, ha⟩ | ⟨n, rfl, ha⟩ <;>
    rcases intToString_data b with ⟨k, rfl, hb⟩ | ⟨k, rfl, hb⟩
  · rw [ha, hb] at hd
    have := congrArg digitsValue hd
    rw [(natRepr_spec n).1, (natRepr_spec k).1] at this
    rw [this]
  · rw [ha, hb] at hd
    exfalso
    have hmem : '-' ∈ (toString n).data := by rw [hd]; simp
    exact ((natRepr_spec n).2.1 _ hmem).2 rfl
  · rw [ha, hb] at hd
    exfalso
    have hmem : '-' ∈ (toString k).data := by rw [← hd]; simp
    exact ((natRepr_spec k).2.1 _ hmem).2 rfl
  · rw [ha, hb] at hd
    have := congrArg digitsValue (List.cons.inj hd).2
    rw [(natRepr_spec (n + 1)).1, (natRepr_spec (k + 1)).1] at this
    have : n = k := by omega
    rw [this]

theorem append_cons_inj_of_not_mem {c : Char} : ∀ {p q r s : List Char}, c ∉ p → c ∉ q →
    p ++ c :: r = q ++ c :: s → p = q ∧ r = s := by
  intro p
  induction p with
  | nil =>
    intro q r s _ hq h
    cases q with
    | nil => simpa using h
    | cons x q =>
      simp only [List.nil_append, List.cons_append, List.cons.injEq] at h
      exact absurd (by rw [h.1]; simp) hq
  | cons x p ih =>
    intro q r s hp hq h
    cases q with
    | nil =>
      simp only [List.nil_append, List.cons_append, List.cons.injEq] at h
      exact absurd (by rw [← h.1]; simp) hp
    | cons y q =>
      simp only [List.cons_append, List.cons.injEq] at h
      have := ih (fun hm => hp (List.mem_cons_of_mem _ hm))
        (fun hm => hq (List.mem_cons_of_mem _ hm)) h.2
      exact ⟨by rw [h.1, this.1], this.2⟩

theorem generateSessionId_injective {now now2 : Int} {rnd rnd2 : String}
    (h : generateSessionId now rnd = generateSessionId now2 rnd2) : now = now2 ∧ rnd = rnd2 := by
  have hd := congrArg String.data h
  simp only [generateSessionId, String.data_append, List.append_assoc] at hd
  have h1 := List.append_cancel_left hd
  have h2 := append_cons_inj_of_not_mem (intToString_no_underscore now)
    (intToString_no_underscore now2) h1
  exact ⟨intToString_injective (String.ext h2.1), String.ext h2.2⟩

/-! ## Confirmation -/

theorem strTruthy_of_ne {s : String} (h : s ≠ "") : strTruthy (some s) = some s := by
  simp [strTruthy, h]

/-- The handler of `/reward/confirm` once both fields are there and the session is found. -/
theorem rewardConfirm_found (m : Store) (now : Int) {sid pk : String} (w a : Option ℚ)
    {s : Session} (hsid : sid ≠ "") (hpk : pk ≠ "") (hget : mapGet m sid = some s) :
    rewardConfirm m now ⟨some sid, some pk, w, a⟩ =
      if s.pageKey ≠ pk then (.forbidden, m)
      else if s.confirmed then (.conflict, m)
      else if nanAgeGt now s.createdAt.getTime maxAge then (.gone, mapDelete m sid)
      else
        match w.filter (fun x : ℚ => x < MINIMUM_WATCH_TIME) with
        | some x => (.watchTooShort x MINIMUM_WATCH_TIME, m)
        | none =>
          match (numTruthy a).filter (fun x : ℚ => (now - x) / 1000 < MINIMUM_WATCH_TIME) with
          | some x => (.elapsedTooShort (mathRound ((now - x) / 1000)) MINIMUM_WATCH_TIME, m)
          | none =>
            (.confirmedOk sid now w,
              mapSet m sid
                { s with
                  confirmed := true
                  confirmedAt := some now
                  watchTime := numTruthy w
                  adStartTime := numTruthy a }) := by
  simp only [rewardConfirm, strTruthy_of_ne hsid, strTruthy_of_ne hpk, hget]

/-- The same, for a session that is the caller's, unconfirmed and within the window. -/
theorem rewardConfirm_live (m : Store) (now : Int) {sid pk : String} (w a : Option ℚ)
    {s : Session} (hsid : sid ≠ "") (hpk : pk ≠ "") (hget : mapGet m sid = some s)
    (hown : s.pageKey = pk) (hconf : s.confirmed = false)
    (hage : nanAgeGt now s.createdAt.getTime maxAge = false) :
    rewardConfirm m now ⟨some sid, some pk, w, a⟩ =
        match w.filter (fun x : ℚ => x < MINIMUM_WATCH_TIME) with
        | some x => (.watchTooShort x MINIMUM_WATCH_TIME, m)
        | none =>
          match (numTruthy a).filter (fun x : ℚ => (now - x) / 1000 < MINIMUM_WATCH_TIME) with
          | some x => (.elapsedTooShort (mathRound ((now - x) / 1000)) MINIMUM_WATCH_TIME, m)
          | none =>
            (.confirmedOk sid now w,
              mapSet m sid
                { s with
                  confirmed := true
                  confirmedAt := some now
                  watchTime := numTruthy w
                  adStartTime := numTruthy a }) := by
  rw [rewardConfirm_found m now w a hsid hpk hget]
  simp [hown, hconf, hage]

theorem nanAgeGt_false_of_le {now t : Int} {c : TimeVal} (ht : c.getTime = some t)
    (h : now - t ≤ 10 * 60 * 1000) : nanAgeGt now c.getTime maxAge = false := by
  simp only [ht, nanAgeGt, maxAge, decide_eq_false_iff_not, not_lt]
  exact h

theorem nanAgeGt_true_of_gt {now t : Int} {c : TimeVal} (ht : c.getTime = some t)
    (h : now - t > 10 * 60 * 1000) : nanAgeGt now c.getTime maxAge = true := by
  simp only [ht, nanAgeGt, maxAge, decide_eq_true_eq]
  exact h

theorem watch_filter_none {w : Option ℚ} (hw : ∀ x, w = some x → 30 ≤ x) :
    w.filter (fun x : ℚ => x < MINIMUM_WATCH_TIME) = none := by
  cases w with
  | none => rfl
  | some x =>
    have := hw x rfl
    simp [Option.filter, MINIMUM_WATCH_TIME, this]

theorem elapsed_filter_none {now : Int} {a : Option ℚ}
    (ha : ∀ x, a = some x → x ≠ 0 → 30 * 1000 ≤ (now : ℚ) - x) :
    (numTruthy a).filter (fun x : ℚ => (now - x) / 1000 < MINIMUM_WATCH_TIME) = none := by
  cases a with
  | none => rfl
  | some x =>
    by_cases hx : x = 0
    · simp [numTruthy, hx]
    · have := ha x rfl hx
      have h2 : ¬ ((now : ℚ) - x) / 1000 < 30 := by
        rw [not_lt, le_div_iff₀ (by norm_num)]
        linarith
      simp [numTruthy, hx, Option.filter, MINIMUM_WATCH_TIME, h2]

/-- **C1.** A confirmation of a stored session that is the caller's (same
`pageKey`), not yet confirmed, at most 10 minutes old, with `watchTime` absent
or at least 30 and `adStartTime` absent or at least 30 seconds before `now`,
returns success with that `sessionId`; afterwards the stored session has
`confirmed = true` and `confirmedAt = now`, its `sessionId`, `pageKey`,
`userAgent` and `createdAt` are what they were, and every other key of the
store maps to what it mapped to before. -/
theorem confirm_success (m : Store) (hwf : WF m) (now : Int) (sid pk : String)
    (w a : Option ℚ) (s : Session) (t : Int)
    (hget : mapGet m sid = some s) (hown : s.pageKey = pk) (hconf : s.confirmed = false)
    (ht : s.createdAt.getTime = some t) (hage : now - t ≤ 10 * 60 * 1000)
    (hw : ∀ x, w = some x → 30 ≤ x)
    (ha : ∀ x, a = some x → 30 * 1000 ≤ (now : ℚ) - x) :
    (rewardConfirm m now ⟨some sid, some pk, w, a⟩).1 = .confirmedOk sid now w ∧
    (rewardConfirm m now ⟨some sid, some pk, w, a⟩).1.ok = true ∧
    (∃ s1, mapGet (rewardConfirm m now ⟨some sid, some pk, w, a⟩).2 sid = some s1 ∧
      s1.confirmed = true ∧ s1.confirmedAt = some now ∧ s1.sessionId = s.sessionId ∧
      s1.pageKey = s.pageKey ∧ s1.userAgent = s.userAgent ∧ s1.createdAt = s.createdAt) ∧
    ∀ k, k ≠ sid →
      mapGet (rewardConfirm m now ⟨some sid, some pk, w, a⟩).2 k = mapGet m k := by
  have hmem := hwf.2 _ (mem_of_mapGet hget)
  have hsid : sid ≠ "" := hmem.1
  have hpk : pk ≠ "" := hown ▸ hmem.2
  rw [rewardConfirm_live m now w a hsid hpk hget hown hconf (nanAgeGt_false_of_le ht hage),
    watch_filter_none hw, elapsed_filter_none (fun x hx _ => ha x hx)]
  refine ⟨rfl, rfl, ⟨_, mapGet_set_self _ _ _, rfl, rfl, rfl, rfl, rfl, rfl⟩, ?_⟩
  intro k hk
  exact mapGet_set_ne _ _ _ _ hk

/-- The sample session confirmed one minute after its creation, with a watch time of 30
and an ad started 30 seconds earlier. -/
theorem confirm_success_witness :
    (rewardConfirm sampleStore 1700000060000
        ⟨some sampleId, some "home", some 30, some 1700000030000⟩).1
      = .confirmedOk sampleId 1700000060000 (some 30) :=
  (confirm_success sampleStore (by decide) 1700000060000 sampleId "home" (some 30)
    (some 1700000030000) sampleSession 1700000000000 rfl rfl rfl rfl (by decide)
    (by intro x hx; cases hx; norm_num) (by intro x hx; cases hx; norm_num)).1

/-- What a successful confirmation tells about the request and the store. -/
theorem rewardConfirm_ok_inv {m : Store} {now : Int} {body : ConfirmBody}
    (hok : (rewardConfirm m now body).1.ok = true) :
    ∃ sid pk s, body.sessionId = some sid ∧ sid ≠ "" ∧ body.pageKey = some pk ∧ pk ≠ "" ∧
      mapGet m sid = some s ∧ s.pageKey = pk ∧ s.confirmed = false ∧
      nanAgeGt now s.createdAt.getTime maxAge = false ∧
      body.watchTime.filter (fun x : ℚ => x < MINIMUM_WATCH_TIME) = none ∧
      (numTruthy body.adStartTime).filter
        (fun x : ℚ => (now - x) / 1000 < MINIMUM_WATCH_TIME) = none ∧
      rewardConfirm m now body =
        (.confirmedOk sid now body.watchTime,
          mapSet m sid
            { s with
              confirmed := true
              confirmedAt := some now
              watchTime := numTruthy body.watchTime
              adStartTime := numTruthy body.adStartTime }) := by
  unfold rewardConfirm at hok ⊢
  split at hok
  · rename_i sid pk hsid hpk
    split at hok
    · exact absurd hok (by simp [Response.ok, Response.code])
    · rename_i s hget
      split at hok
      · exact absurd hok (by simp [Response.ok, Response.code])
      · rename_i hown
        split at hok
        · exact absurd hok (by simp [Response.ok, Response.code])
        · rename_i hconf
          split at hok
          · exact absurd hok (by simp [Response.ok, Response.code])
          · rename_i hage
            split at hok
            · exact absurd hok (by simp [Response.ok, Response.code])
            · rename_i hw
              split at hok
              · exact absurd hok (by simp [Response.ok, Response.code])
              · rename_i ha
                refine ⟨sid, pk, s, (strTruthy_some hsid).1, (strTruthy_some hsid).2,
                  (strTruthy_some hpk).1, (strTruthy_some hpk).2, hget, ?_, ?_, ?_, hw, ha, ?_⟩
                · exact not_not.1 hown
                · simpa using hconf
                · simpa using hage
                · simp only [hsid, hpk, hget, hown, hconf, hage, hw, ha]
                  simp
  · exact absurd hok (by simp [Response.ok, Response.code])

theorem numTruthy_of_watch_ok {w : Option ℚ}
    (hw : w.filter (fun x : ℚ => x < MINIMUM_WATCH_TIME) = none) : numTruthy w = w := by
  cases w with
  | none => rfl
  | some x =>
    by_cases hx : x < MINIMUM_WATCH_TIME
    · simp [Option.filter, hx] at hw
    · have : x ≠ 0 := by
        rintro rfl
        exact hx (by norm_num [MINIMUM_WATCH_TIME])
      simp [numTruthy, this]

/-- **C2.** After a confirmation that succeeded, a confirmation with the same
`sessionId` and `pageKey` on the resulting store, at any time and with any
`watchTime` and `adStartTime`, fails with Conflict (409) and returns the store
as it was, so the session still carries the `confirmedAt` and the `watchTime`
of the first call. -/
theorem confirm_twice_conflict (m : Store) (now : Int) (body : ConfirmBody)
    (hok : (rewardConfirm m now body).1.ok = true) (now2 : Int) (w2 a2 : Option ℚ) :
    rewardConfirm (rewardConfirm m now body).2 now2 ⟨body.sessionId, body.pageKey, w2, a2⟩
      = (.conflict, (rewardConfirm m now body).2) ∧
    Response.code .conflict = 409 ∧
    ∃ sid s1, body.sessionId = some sid ∧
      mapGet (rewardConfirm (rewardConfirm m now body).2 now2
        ⟨body.sessionId, body.pageKey, w2, a2⟩).2 sid = some s1 ∧
      s1.confirmed = true ∧ s1.confirmedAt = some now ∧ s1.watchTime = body.watchTime := by
  obtain ⟨sid, pk, s, hsid, hsid0, hpk, hpk0, hget, hown, -, -, hw, -, heq⟩ :=
    rewardConfirm_ok_inv hok
  have hget1 := mapGet_set_self m sid
    { s with
      confirmed := true
      confirmedAt := some now
      watchTime := numTruthy body.watchTime
      adStartTime := numTruthy body.adStartTime }
  have h2 : rewardConfirm (rewardConfirm m now body).2 now2
      ⟨body.sessionId, body.pageKey, w2, a2⟩ = (.conflict, (rewardConfirm m now body).2) := by
    rw [heq, hsid, hpk, rewardConfirm_found _ now2 w2 a2 hsid0 hpk0 hget1]
    simp [hown]
  refine ⟨h2, rfl, sid,
    { s with
      confirmed := true
      confirmedAt := some now
      watchTime := numTruthy body.watchTime
      adStartTime := numTruthy body.adStartTime }, hsid, ?_, rfl, rfl, numTruthy_of_watch_ok hw⟩
  rw [h2, heq]; exact hget1

/-- The sample session confirmed, then confirmed again one second later. -/
theorem confirm_twice_conflict_witness :
    rewardConfirm
        (rewardConfirm sampleStore 1700000060000 ⟨some sampleId, some "home", some 45, none⟩).2
        1700000061000 ⟨some sampleId, some "home", some 99, none⟩
      = (.conflict,
        (rewardConfirm sampleStore 1700000060000 ⟨some sampleId, some "home", some 45, none⟩).2) :=
  (confirm_twice_conflict sampleStore 1700000060000 ⟨some sampleId, some "home", some 45, none⟩
    (by decide) 1700000061000 (some 99) none).1

/-- The expiry check on a session whose creation time `Date` can read.  A
confirmation naming a stored, unconfirmed session of the caller
created more than 10 minutes before `now` fails with Gone (410) whatever
`watchTime` and `adStartTime` are, removes the session, and a status query on
the resulting store fails with NotFound; a session exactly 10 minutes old is
not expired: the call does not answer Gone and the session stays in the store. -/
theorem confirm_expired_gone (m : Store) (hwf : WF m) (now : Int) (sid pk : String)
    (w a : Option ℚ) (s : Session) (t : Int)
    (hget : mapGet m sid = some s) (hown : s.pageKey = pk) (hconf : s.confirmed = false)
    (ht : s.createdAt.getTime = some t) :
    (now - t > 10 * 60 * 1000 →
      rewardConfirm m now ⟨some sid, some pk, w, a⟩ = (.gone, mapDelete m sid) ∧
      (rewardConfirm m now ⟨some sid, some pk, w, a⟩).1.code = 410 ∧
      mapGet (rewardConfirm m now ⟨some sid, some pk, w, a⟩).2 sid = none ∧
      (rewardStatus (rewardConfirm m now ⟨some sid, some pk, w, a⟩).2 sid).1 = .notFound) ∧
    (now - t = 10 * 60 * 1000 →
      (rewardConfirm m now ⟨some sid, some pk, w, a⟩).1 ≠ .gone ∧
      (mapGet (rewardConfirm m now ⟨some sid, some pk, w, a⟩).2 sid).isSome = true) := by
  have hmem := hwf.2 _ (mem_of_mapGet hget)
  have hsid : sid ≠ "" := hmem.1
  have hpk : pk ≠ "" := hown ▸ hmem.2
  constructor
  · intro hage
    have h1 : rewardConfirm m now ⟨some sid, some pk, w, a⟩ = (.gone, mapDelete m sid) := by
      rw [rewardConfirm_found m now w a hsid hpk hget]
      simp [hown, hconf, nanAgeGt_true_of_gt ht hage]
    refine ⟨h1, by rw [h1]; rfl, by rw [h1]; exact mapGet_delete_self m sid, ?_⟩
    rw [h1]
    simp [rewardStatus, mapGet_delete_self]
  · intro hage
    rw [rewardConfirm_live m now w a hsid hpk hget hown hconf
      (nanAgeGt_false_of_le ht (le_of_eq hage))]
    split
    · exact ⟨by simp, by simp [hget]⟩
    · split
      · exact ⟨by simp, by simp [hget]⟩
      · exact ⟨by simp, by simp [mapGet_set_self]⟩

/-- The sample session confirmed one millisecond after its window closed, and
exactly when it closes. -/
theorem confirm_expired_gone_witness :
    rewardConfirm sampleStore 1700000600001 ⟨some sampleId, some "home", some 5, none⟩
      = (.gone, mapDelete sampleStore sampleId) ∧
    (rewardConfirm sampleStore 1700000600000 ⟨some sampleId, some "home", some 5, none⟩).1
      ≠ .gone :=
  ⟨((confirm_expired_gone sampleStore (by decide) 1700000600001 sampleId "home" (some 5) none
      sampleSession 1700000000000 rfl rfl rfl rfl).1 (by decide)).1,
    ((confirm_expired_gone sampleStore (by decide) 1700000600000 sampleId "home" (some 5) none
      sampleSession 1700000000000 rfl rfl rfl rfl).2 (by decide)).1⟩

/-- **C3, where the code departs from it.** A start request at clock value
1700000000000 carries the `timestamp` -8640000000000001, a number that lies
more than 10 minutes before any clock value and that `new Date` reads as
`NaN`.  The session is stored, unconfirmed, for page `home`.  A confirmation
for it a day later, with the right `pageKey`, does not fail with Gone: the
comparison of its age with `maxAge` is a comparison with `NaN`, the call
succeeds, the session stays in the store and a status query finds it. -/
theorem confirm_unreadable_not_gone :
    (mapGet ancientStore sampleId).map Session.createdAt = some (.num (-8640000000000001)) ∧
    (mapGet ancientStore sampleId).map Session.pageKey = some "home" ∧
    (mapGet ancientStore sampleId).map Session.confirmed = some false ∧
    (1700086400000 : Int) - (-8640000000000001) > 10 * 60 * 1000 ∧
    (rewardConfirm ancientStore 1700086400000 ⟨some sampleId, some "home", none, none⟩).1
      = .confirmedOk sampleId 1700086400000 none ∧
    (rewardConfirm ancientStore 1700086400000 ⟨some sampleId, some "home", none, none⟩).1
      ≠ .gone ∧
    (mapGet (rewardConfirm ancientStore 1700086400000
      ⟨some sampleId, some "home", none, none⟩).2 sampleId).isSome = true ∧
    (rewardStatus (rewardConfirm ancientStore 1700086400000
      ⟨some sampleId, some "home", none, none⟩).2 sampleId).1 ≠ .notFound := by
  decide

/-- **C4.** A confirmation whose `sessionId` names a stored session and whose
non-empty `pageKey` is not the stored one fails with Forbidden (403), whatever
the session's `confirmed` flag and age and whatever `watchTime` and
`adStartTime` are, and returns the store as it was. -/
theorem confirm_wrong_pageKey (m : Store) (hwf : WF m) (now : Int) (sid pk : String)
    (w a : Option ℚ) (s : Session)
    (hget : mapGet m sid = some s) (hpk : pk ≠ "") (hne : s.pageKey ≠ pk) :
    rewardConfirm m now ⟨some sid, some pk, w, a⟩ = (.forbidden, m) ∧
    (rewardConfirm m now ⟨some sid, some pk, w, a⟩).1.code = 403 ∧
    mapGet (rewardConfirm m now ⟨some sid, some pk, w, a⟩).2 sid = some s := by
  have hsid : sid ≠ "" := (hwf.2 _ (mem_of_mapGet hget)).1
  have h1 : rewardConfirm m now ⟨some sid, some pk, w, a⟩ = (.forbidden, m) := by
    rw [rewardConfirm_found m now w a hsid hpk hget]
    simp [hne]
  exact ⟨h1, by rw [h1]; rfl, by rw [h1]; exact hget⟩

/-- The sample session of page `home` confirmed for page `shop`. -/
theorem confirm_wrong_pageKey_witness :
    rewardConfirm sampleStore 1700000060000 ⟨some sampleId, some "shop", some 45, none⟩
      = (.forbidden, sampleStore) :=
  (confirm_wrong_pageKey sampleStore (by decide) 1700000060000 sampleId "shop" (some 45) none
    sampleSession rfl (by decide) (by decide)).1

/-- **C5.** For a stored, unconfirmed session of the caller at most 10 minutes
old and a supplied `watchTime = w`: if `w < 30` the confirmation fails with
status 400 carrying `watchTime = w` and `minimumRequired = 30`, whatever
`adStartTime` is, and the store is returned as it was; if `w ≥ 30` and
`adStartTime` is absent it succeeds.  In particular 29 is rejected and 30 is
accepted. -/
theorem confirm_watchTime_boundary (m : Store) (hwf : WF m) (now : Int) (sid pk : String)
    (s : Session) (t : Int)
    (hget : mapGet m sid = some s) (hown : s.pageKey = pk) (hconf : s.confirmed = false)
    (ht : s.createdAt.getTime = some t) (hage : now - t ≤ 10 * 60 * 1000) :
    (∀ (w : ℚ) (a : Option ℚ), w < 30 →
      rewardConfirm m now ⟨some sid, some pk, some w, a⟩ = (.watchTooShort w 30, m) ∧
      (rewardConfirm m now ⟨some sid, some pk, some w, a⟩).1.code = 400) ∧
    (∀ w : ℚ, 30 ≤ w →
      (rewardConfirm m now ⟨some sid, some pk, some w, none⟩).1 = .confirmedOk sid now (some w)) ∧
    (∀ a : Option ℚ,
      (rewardConfirm m now ⟨some sid, some pk, some 29, a⟩).1 = .watchTooShort 29 30) ∧
    (rewardConfirm m now ⟨some sid, some pk, some 30, none⟩).1.ok = true := by
  have hmem := hwf.2 _ (mem_of_mapGet hget)
  have hsid : sid ≠ "" := hmem.1
  have hpk : pk ≠ "" := hown ▸ hmem.2
  have hlive := fun w a => rewardConfirm_live m now w a hsid hpk hget hown hconf
    (nanAgeGt_false_of_le ht hage)
  have hlow : ∀ (w : ℚ) (a : Option ℚ), w < 30 →
      rewardConfirm m now ⟨some sid, some pk, some w, a⟩ = (.watchTooShort w 30, m) := by
    intro w a hw
    rw [hlive]
    simp [Option.filter, MINIMUM_WATCH_TIME, hw]
  have hhigh : ∀ w : ℚ, 30 ≤ w →
      (rewardConfirm m now ⟨some sid, some pk, some w, none⟩).1
        = .confirmedOk sid now (some w) := by
    intro w hw
    rw [hlive, watch_filter_none (by intro x hx; cases hx; exact hw)]
    rfl
  refine ⟨fun w a hw => ⟨hlow w a hw, by rw [hlow w a hw]; rfl⟩, hhigh, ?_, ?_⟩
  · intro a
    rw [hlow 29 a (by norm_num)]
  · rw [hhigh 30 (le_refl _)]
    rfl

/-- The sample session confirmed with a watch time of 29, and with one of 30. -/
theorem confirm_watchTime_boundary_witness :
    (rewardConfirm sampleStore 1700000060000 ⟨some sampleId, some "home", some 29, some 5⟩).1
      = .watchTooShort 29 30 ∧
    (rewardConfirm sampleStore 1700000060000 ⟨some sampleId, some "home", some 30, none⟩).1
      = .confirmedOk sampleId 1700000060000 (some 30) :=
  ⟨(confirm_watchTime_boundary sampleStore (by decide) 1700000060000 sampleId "home"
      sampleSession 1700000000000 rfl rfl rfl rfl (by decide)).2.2.1 (some 5),
    (confirm_watchTime_boundary sampleStore (by decide) 1700000060000 sampleId "home"
      sampleSession 1700000000000 rfl rfl rfl rfl (by decide)).2.1 30 (le_refl _)⟩

theorem abs_mathRound_sub_le (q : ℚ) : |(mathRound q : ℚ) - q| ≤ 1 / 2 := by
  unfold mathRound
  have h1 := Int.floor_le (q + 1 / 2)
  have h2 := Int.lt_floor_add_one (q + 1 / 2)
  rw [abs_le]
  constructor <;> linarith

theorem mathRound_eq {q : ℚ} {z : Int} (h1 : (z : ℚ) ≤ q + 1 / 2) (h2 : q + 1 / 2 < z + 1) :
    mathRound q = z := by
  unfold mathRound
  exact Int.floor_eq_iff.2 ⟨h1, h2⟩

/-- **C6.** For a clock value in range, a stored, unconfirmed session of the
caller at most 10 minutes old, `watchTime` absent or at least 30, and any
supplied `adStartTime`, zero included, with
`elapsed = (now - adStartTime) / 1000`: if `elapsed < 30` the confirmation
fails with status 400 carrying `minimumRequired = 30` and an `elapsedTime`
that, for `adStartTime` up to `2 ^ 53`, is `Math.round(elapsed)`, an integer
within one half of `elapsed`, and the store is returned as it was; if
`elapsed ≥ 30` it succeeds.  An elapsed time of 29.4 is rejected reporting 29
and one of 30 is accepted.  An `adStartTime` of `0` is accepted: the handler
skips the check for it, and its elapsed time is the clock value, which is
above the minimum. -/
theorem confirm_elapsed_boundary (m : Store) (hwf : WF m) (now : Int)
    (hclock : clockInRange now) (sid pk : String)
    (s : Session) (t : Int) (w : Option ℚ)
    (hget : mapGet m sid = some s) (hown : s.pageKey = pk) (hconf : s.confirmed = false)
    (ht : s.createdAt.getTime = some t) (hage : now - t ≤ 10 * 60 * 1000)
    (hw : ∀ x, w = some x → 30 ≤ x) :
    (∀ a : ℚ, (now - a) / 1000 < 30 →
      (rewardConfirm m now ⟨some sid, some pk, w, some a⟩).1.code = 400 ∧
      (rewardConfirm m now ⟨some sid, some pk, w, some a⟩).2 = m ∧
      ∃ e : Int, (rewardConfirm m now ⟨some sid, some pk, w, some a⟩).1
          = .elapsedTooShort e 30 ∧
        (a ≤ 2 ^ 53 →
          e = mathRound ((now - a) / 1000) ∧ |(e : ℚ) - (now - a) / 1000| ≤ 1 / 2)) ∧
    (∀ a : ℚ, 30 ≤ (now - a) / 1000 →
      (rewardConfirm m now ⟨some sid, some pk, w, some a⟩).1 = .confirmedOk sid now w) ∧
    (∀ a : ℚ, (now - a) / 1000 = 294 / 10 →
      (rewardConfirm m now ⟨some sid, some pk, w, some a⟩).1 = .elapsedTooShort 29 30) ∧
    (∀ a : ℚ, (now - a) / 1000 = 30 →
      (rewardConfirm m now ⟨some sid, some pk, w, some a⟩).1.ok = true) ∧
    (30 ≤ ((now : ℚ) - 0) / 1000 ∧
      (rewardConfirm m now ⟨some sid, some pk, w, some 0⟩).1 = .confirmedOk sid now w) := by
  have hmem := hwf.2 _ (mem_of_mapGet hget)
  have hsid : sid ≠ "" := hmem.1
  have hpk : pk ≠ "" := hown ▸ hmem.2
  have hnow : (60000 : ℚ) ≤ (now : ℚ) := by
    have h := hclock.1
    exact_mod_cast h
  have hlive := fun a => rewardConfirm_live m now w a hsid hpk hget hown hconf
    (nanAgeGt_false_of_le ht hage)
  have hlow : ∀ a : ℚ, (now - a) / 1000 < 30 →
      rewardConfirm m now ⟨some sid, some pk, w, some a⟩
        = (.elapsedTooShort (mathRound ((now - a) / 1000)) 30, m) := by
    intro a hlt
    have ha : a ≠ 0 := by
      rintro rfl
      rw [div_lt_iff₀ (by norm_num)] at hlt
      linarith
    rw [hlive, watch_filter_none hw]
    simp [numTruthy, ha, Option.filter, MINIMUM_WATCH_TIME, hlt]
  have hhigh : ∀ a : ℚ, 30 ≤ (now - a) / 1000 →
      (rewardConfirm m now ⟨some sid, some pk, w, some a⟩).1 = .confirmedOk sid now w := by
    intro a hge
    rw [hlive, watch_filter_none hw]
    by_cases ha : a = 0
    · simp [numTruthy, ha]
    · simp [numTruthy, ha, Option.filter, MINIMUM_WATCH_TIME, not_lt.2 hge]
  have hzero : (30 : ℚ) ≤ ((now : ℚ) - 0) / 1000 := by
    rw [le_div_iff₀ (by norm_num)]
    linarith
  refine ⟨fun a hlt => ?_, hhigh, ?_, ?_, hzero, hhigh 0 hzero⟩
  · rw [hlow a hlt]
    exact ⟨rfl, rfl, _, rfl, fun _ => ⟨rfl, abs_mathRound_sub_le _⟩⟩
  · intro a he
    rw [hlow a (by rw [he]; norm_num), he]
    rw [mathRound_eq (z := 29) (by norm_num) (by norm_num)]
  · intro a he
    rw [hhigh a (by rw [he])]
    rfl

/-- The sample session confirmed 29.4 seconds after the ad started, 30 seconds
after it, and with an `adStartTime` of `0`. -/
theorem confirm_elapsed_boundary_witness :
    (rewardConfirm sampleStore 1700000060000
        ⟨some sampleId, some "home", none, some 1700000030600⟩).1
      = .elapsedTooShort 29 30 ∧
    (rewardConfirm sampleStore 1700000060000
        ⟨some sampleId, some "home", none, some 1700000030000⟩).1
      = .confirmedOk sampleId 1700000060000 none ∧
    (rewardConfirm sampleStore 1700000060000
        ⟨some sampleId, some "home", none, some 0⟩).1
      = .confirmedOk sampleId 1700000060000 none :=
  ⟨(confirm_elapsed_boundary sampleStore (by decide) 1700000060000 (by decide) sampleId "home"
      sampleSession 1700000000000 none rfl rfl rfl rfl (by decide)
      (by intro x hx; cases hx)).2.2.1 1700000030600 (by norm_num),
    (confirm_elapsed_boundary sampleStore (by decide) 1700000060000 (by decide) sampleId "home"
      sampleSession 1700000000000 none rfl rfl rfl rfl (by decide)
      (by intro x hx; cases hx)).2.1 1700000030000 (by norm_num),
    (confirm_elapsed_boundary sampleStore (by decide) 1700000060000 (by decide) sampleId "home"
      sampleSession 1700000000000 none rfl rfl rfl rfl (by decide)
      (by intro x hx; cases hx)).2.2.2.2.2⟩

/-- How `/reward/confirm` leaves the store: untouched, or without the named
session after a Gone, or with the named session confirmed after a success. -/
theorem rewardConfirm_store_cases (m : Store) (now : Int) (body : ConfirmBody) :
    (rewardConfirm m now body).2 = m ∨
    (∃ sid, body.sessionId = some sid ∧ rewardConfirm m now body = (.gone, mapDelete m sid)) ∨
    (rewardConfirm m now body).1.ok = true := by
  unfold rewardConfirm
  split
  · rename_i sid pk hsid hpk
    split
    · exact Or.inl rfl
    · split
      · exact Or.inl rfl
      · split
        · exact Or.inl rfl
        · split
          · exact Or.inr (Or.inl ⟨sid, (strTruthy_some hsid).1, rfl⟩)
          · split
            · exact Or.inl rfl
            · split
              · exact Or.inl rfl
              · exact Or.inr (Or.inr rfl)
  · exact Or.inl rfl

/-- What `/reward/start` leaves under a key: nothing, the session that was
there, or the new unconfirmed one. -/
theorem mapGet_rewardStart_cases (m : Store) (now : Int) (rnd : String) (body : StartBody)
    (k : String) (s1 : Session) (h : mapGet (rewardStart m now rnd body).2 k = some s1) :
    mapGet m k = some s1 ∨ (s1.confirmed = false ∧ s1.confirmedAt = none) := by
  unfold rewardStart at h
  split at h
  · exact Or.inl h
  · rename_i pk hpk
    simp only [] at h
    rcases mapGet_sweep_cases
      (mapSet m (generateSessionId now rnd)
        (newSession (generateSessionId now rnd) pk body now)) now k with h1 | h1
    · rw [h1] at h; cases h
    · rw [h1, mapGet_set] at h
      split at h
      · cases h
        exact Or.inr ⟨rfl, rfl⟩
      · exact Or.inl h

/-- No handler confirms a stale session whose creation time `Date` can read.  A
confirmation, with any arguments, that names a stored session
with `confirmed = false` created more than 10 minutes before `now` does not
return success, and afterwards the store holds no confirmed session under that
`sessionId`.  Neither does a start request or a status query at that time
leave a confirmed session under that `sessionId`. -/
theorem stale_never_confirmed (m : Store) (now : Int) (body : ConfirmBody) (sid : String)
    (s : Session) (t : Int) (hsid : body.sessionId = some sid)
    (hget : mapGet m sid = some s) (hconf : s.confirmed = false)
    (ht : s.createdAt.getTime = some t) (hage : now - t > 10 * 60 * 1000) :
    (rewardConfirm m now body).1.ok = false ∧
    (∀ s1, mapGet (rewardConfirm m now body).2 sid = some s1 → s1.confirmed = false) ∧
    (∀ (rnd : String) (sb : StartBody) (s1 : Session),
      mapGet (rewardStart m now rnd sb).2 sid = some s1 → s1.confirmed = false) ∧
    (∀ (q : String) (s1 : Session),
      mapGet (rewardStatus m q).2 sid = some s1 → s1.confirmed = false) := by
  have hnot : (rewardConfirm m now body).1.ok = false := by
    cases hok : (rewardConfirm m now body).1.ok with
    | false => rfl
    | true =>
      obtain ⟨sid1, pk, s1, hsid1, -, -, -, hget1, -, -, hage1, -⟩ := rewardConfirm_ok_inv hok
      rw [hsid] at hsid1
      cases hsid1
      rw [hget] at hget1
      cases hget1
      rw [nanAgeGt_true_of_gt ht hage] at hage1
      cases hage1
  refine ⟨hnot, ?_, ?_, ?_⟩
  · intro s1 hs1
    rcases rewardConfirm_store_cases m now body with h | ⟨sid1, hsid1, h⟩ | h
    · rw [h, hget] at hs1
      cases hs1
      exact hconf
    · rw [hsid] at hsid1
      cases hsid1
      rw [h, mapGet_delete_self] at hs1
      cases hs1
    · rw [hnot] at h
      cases h
  · intro rnd sb s1 hs1
    rcases mapGet_rewardStart_cases m now rnd sb sid s1 hs1 with h | h
    · rw [hget] at h
      cases h
      exact hconf
    · exact h.1
  · intro q s1 hs1
    have : (rewardStatus m q).2 = m := by
      unfold rewardStatus
      split <;> rfl
    rw [this, hget] at hs1
    cases hs1
    exact hconf

/-- The sample session confirmed one millisecond after its window closed does not succeed. -/
theorem stale_never_confirmed_witness :
    (rewardConfirm sampleStore 1700000600001 ⟨some sampleId, some "home", some 45, none⟩).1.ok
      = false :=
  (stale_never_confirmed sampleStore 1700000600001 ⟨some sampleId, some "home", some 45, none⟩
    sampleId sampleSession 1700000000000 rfl rfl rfl rfl (by decide)).1

/-- **C7, where the code departs from it.** The session stored by a start
request with the `timestamp` -8640000000000001 is unconfirmed and was created
more than 10 minutes before the clock value 1700086400000; a confirmation at
that clock value returns success all the same, and afterwards the store holds
that session with `confirmed = true`. -/
theorem stale_unreadable_confirmed :
    (mapGet ancientStore sampleId).map Session.createdAt = some (.num (-8640000000000001)) ∧
    (mapGet ancientStore sampleId).map Session.confirmed = some false ∧
    (1700086400000 : Int) - (-8640000000000001) > 10 * 60 * 1000 ∧
    (rewardConfirm ancientStore 1700086400000 ⟨some sampleId, some "home", none, none⟩).1.ok
      = true ∧
    (mapGet (rewardConfirm ancientStore 1700086400000
      ⟨some sampleId, some "home", none, none⟩).2 sampleId).map Session.confirmed
      = some true := by
  decide

/-! ## Creation and clean-up -/

/-- The handler of `/reward/start` once `pageKey` is there. -/
theorem rewardStart_present (m : Store) (now : Int) (rnd : String) {pk : String}
    (ua hua : Option String) (ts : Option TimeVal) (hpk : pk ≠ "") :
    rewardStart m now rnd ⟨some pk, ua, ts, hua⟩ =
      (.started (generateSessionId now rnd),
        sweep (mapSet m (generateSessionId now rnd)
          (newSession (generateSessionId now rnd) pk ⟨some pk, ua, ts, hua⟩ now)) now) := by
  simp only [rewardStart, strTruthy_of_ne hpk]

/-- Reading the new key back after `/reward/start`. -/
theorem mapGet_rewardStart_self (m : Store) (hwf : WF m) (now : Int) (rnd : String)
    {pk : String} (ua hua : Option String) (ts : Option TimeVal) (hpk : pk ≠ "") :
    mapGet (rewardStart m now rnd ⟨some pk, ua, ts, hua⟩).2 (generateSessionId now rnd) =
      if tooOld now (newSession (generateSessionId now rnd) pk ⟨some pk, ua, ts, hua⟩ now)
      then none
      else some (newSession (generateSessionId now rnd) pk ⟨some pk, ua, ts, hua⟩ now) := by
  rw [rewardStart_present m now rnd ua hua ts hpk]
  have hnd := wf_mapSet (v := newSession (generateSessionId now rnd) pk ⟨some pk, ua, ts, hua⟩ now)
    hwf (generateSessionId_ne_empty now rnd) hpk
  simp only []
  rw [mapGet_sweep _ hnd.1, mapGet_set_self]
  by_cases h : tooOld now
      (newSession (generateSessionId now rnd) pk ⟨some pk, ua, ts, hua⟩ now) = true
  · simp [Option.filter, h]
  · simp [Option.filter, h]

theorem rewardStart_started_inv {m : Store} {now : Int} {rnd : String} {body : StartBody}
    {id : String} (h : (rewardStart m now rnd body).1 = .started id) :
    ∃ pk, body.pageKey = some pk ∧ pk ≠ "" ∧ id = generateSessionId now rnd := by
  unfold rewardStart at h
  split at h
  · cases h
  · rename_i pk hpk
    simp only [Response.started.injEq] at h
    exact ⟨pk, (strTruthy_some hpk).1, (strTruthy_some hpk).2, h.symm⟩

theorem tooOld_iff {now : Int} {s : Session} :
    tooOld now s = true ↔ ∃ x, s.createdAt.getTime = some x ∧ now - x > 60 * 60 * 1000 := by
  unfold tooOld nanLt
  cases s.createdAt.getTime with
  | none => simp
  | some x =>
    simp only [decide_eq_true_eq, Option.some.injEq, exists_eq_left']
    constructor <;> intro h <;> linarith

/-- **C8, as the code has it.** A start request with a non-empty `pageKey`
succeeds and returns the generated `sessionId`.  The session is stored first
and the clean-up runs after it, over the new session too.  When the
`timestamp` is missing or falsy (`0`, `""`), or is truthy and reads as a time
not more than one hour before `now`, the returned `sessionId` is a key of the
resulting store, mapped to a session with that `pageKey`, `confirmed = false`,
no `confirmedAt`, and `createdAt` equal to the supplied `timestamp` if it is
truthy and to `now` otherwise; when a truthy `timestamp` reads as a time more
than one hour before `now`, the returned `sessionId` is not a key of the
resulting store. -/
theorem start_stores_session (m : Store) (hwf : WF m) (now : Int) (rnd pk : String)
    (ua hua : Option String) (ts : Option TimeVal) (hpk : pk ≠ "") :
    (rewardStart m now rnd ⟨some pk, ua, ts, hua⟩).1 = .started (generateSessionId now rnd) ∧
    (rewardStart m now rnd ⟨some pk, ua, ts, hua⟩).1.ok = true ∧
    (∀ t x, ts = some t → t.truthy = true → t.getTime = some x → now - x ≤ 60 * 60 * 1000 →
      ∃ s, mapGet (rewardStart m now rnd ⟨some pk, ua, ts, hua⟩).2 (generateSessionId now rnd)
          = some s ∧
        s.pageKey = pk ∧ s.confirmed = false ∧ s.confirmedAt = none ∧ s.createdAt = t) ∧
    ((ts = none ∨ ∃ t, ts = some t ∧ t.truthy = false) →
      ∃ s, mapGet (rewardStart m now rnd ⟨some pk, ua, ts, hua⟩).2 (generateSessionId now rnd)
          = some s ∧
        s.pageKey = pk ∧ s.confirmed = false ∧ s.confirmedAt = none ∧
        s.createdAt = .iso now) ∧
    (∀ t x, ts = some t → t.truthy = true → t.getTime = some x → now - x > 60 * 60 * 1000 →
      mapGet (rewardStart m now rnd ⟨some pk, ua, ts, hua⟩).2 (generateSessionId now rnd)
        = none) := by
  have hget := mapGet_rewardStart_self m hwf now rnd ua hua ts hpk
  refine ⟨by rw [rewardStart_present m now rnd ua hua ts hpk],
    by rw [rewardStart_present m now rnd ua hua ts hpk]; rfl, ?_, ?_, ?_⟩
  · intro t x hts htr hx hfresh
    subst hts
    have hc : (newSession (generateSessionId now rnd) pk ⟨some pk, ua, some t, hua⟩ now).createdAt
        = t := by
      simp [newSession, htr]
    have hno : tooOld now
        (newSession (generateSessionId now rnd) pk ⟨some pk, ua, some t, hua⟩ now) = false := by
      rw [Bool.eq_false_iff]
      intro hold
      obtain ⟨y, hy, hgt⟩ := tooOld_iff.1 hold
      rw [hc, hx] at hy
      cases hy
      linarith
    rw [hno] at hget
    exact ⟨_, hget, rfl, rfl, rfl, hc⟩
  · intro hts
    have hc : (newSession (generateSessionId now rnd) pk ⟨some pk, ua, ts, hua⟩ now).createdAt
        = .iso now := by
      rcases hts with rfl | ⟨t, rfl, htr⟩
      · rfl
      · simp [newSession, htr]
    have hno : tooOld now
        (newSession (generateSessionId now rnd) pk ⟨some pk, ua, ts, hua⟩ now) = false := by
      simp [tooOld, hc, nanLt, TimeVal.getTime]
    rw [hno] at hget
    exact ⟨_, hget, rfl, rfl, rfl, hc⟩
  · intro t x hts htr hx hgt
    subst hts
    have hc : (newSession (generateSessionId now rnd) pk ⟨some pk, ua, some t, hua⟩ now).createdAt
        = t := by
      simp [newSession, htr]
    have hold : tooOld now
        (newSession (generateSessionId now rnd) pk ⟨some pk, ua, some t, hua⟩ now) = true :=
      tooOld_iff.2 ⟨x, by rw [hc]; exact hx, hgt⟩
    rw [hold] at hget
    exact hget

/-- Counterexample to C8 as stated: a start request whose `timestamp` lies more
than one hour before `now` succeeds, and the returned `sessionId` is not a key
of the resulting store, the clean-up having deleted the session just stored;
and a supplied `timestamp` of `0` is not the `createdAt` of the new session. -/
theorem start_stale_timestamp_swept :
    (rewardStart [] 1700003600001 "k3j9x2m1q"
        ⟨some "home", none, some (.num 1700000000000), none⟩).1
      = .started "session_1700003600001_k3j9x2m1q" ∧
    mapGet (rewardStart [] 1700003600001 "k3j9x2m1q"
        ⟨some "home", none, some (.num 1700000000000), none⟩).2
      "session_1700003600001_k3j9x2m1q" = none ∧
    (mapGet (rewardStart [] 1700003600001 "k3j9x2m1q"
        ⟨some "home", none, some (.num 0), none⟩).2
      "session_1700003600001_k3j9x2m1q").map Session.createdAt
      = some (.iso 1700003600001) := by
  decide

/-- A start request with a timestamp 100 milliseconds before the clock value. -/
theorem start_stores_session_witness :
    (mapGet (rewardStart sampleStore 1700000000500 "z9y8x7w6v"
        ⟨some "shop", none, some (.num 1700000000400), none⟩).2
      (generateSessionId 1700000000500 "z9y8x7w6v")).map Session.createdAt
      = some (.num 1700000000400) := by
  obtain ⟨s, hs, -, -, -, hc⟩ :=
    (start_stores_session sampleStore (by decide) 1700000000500 "z9y8x7w6v" "shop" none none
      (some (.num 1700000000400)) (by decide)).2.2.1 (.num 1700000000400) 1700000000400
      rfl rfl (by decide) (by decide)
  rw [hs, ← hc]
  rfl

/-- The clean-up on sessions whose creation time `Date` can read.  After a
start request that succeeded at time `now`, the store holds
no session created more than one hour before `now`, confirmed or not, and
every session that was stored before under a key other than the new
`sessionId` and was created at most one hour before `now` (exactly one hour
included) is still stored under its key, unchanged. -/
theorem start_sweeps (m : Store) (hwf : WF m) (now : Int) (rnd : String) (body : StartBody)
    (id : String) (hok : (rewardStart m now rnd body).1 = .started id) :
    (∀ k s x, mapGet (rewardStart m now rnd body).2 k = some s →
      s.createdAt.getTime = some x → now - x ≤ 60 * 60 * 1000) ∧
    (∀ k s x, mapGet m k = some s → k ≠ id → s.createdAt.getTime = some x →
      now - x ≤ 60 * 60 * 1000 → mapGet (rewardStart m now rnd body).2 k = some s) := by
  obtain ⟨pk, hbody, hpk, hid⟩ := rewardStart_started_inv hok
  obtain ⟨bpk, ua, ts, hua⟩ := body
  simp only at hbody
  subst hbody hid
  rw [rewardStart_present m now rnd ua hua ts hpk]
  have hnd := wf_mapSet (v := newSession (generateSessionId now rnd) pk ⟨some pk, ua, ts, hua⟩ now)
    hwf (generateSessionId_ne_empty now rnd) hpk
  constructor
  · intro k s x hk hx
    rw [mapGet_sweep _ hnd.1] at hk
    by_contra hgt
    have hold : tooOld now s = true := tooOld_iff.2 ⟨x, hx, not_le.1 hgt⟩
    cases hg : mapGet (mapSet m (generateSessionId now rnd) _) k with
    | none => rw [hg] at hk; simp at hk
    | some s1 =>
      rw [hg] at hk
      by_cases h1 : tooOld now s1 = true
      · simp [Option.filter, h1] at hk
      · simp [Option.filter, h1] at hk
        subst hk
        exact h1 hold
  · intro k s x hk hne hx hle
    rw [mapGet_sweep _ hnd.1, mapGet_set_ne _ _ _ _ hne, hk]
    have hno : tooOld now s = false := by
      rw [Bool.eq_false_iff]
      intro hold
      obtain ⟨y, hy, hgt⟩ := tooOld_iff.1 hold
      rw [hx] at hy
      cases hy
      linarith
    simp [Option.filter, hno]

/-- The sample session, exactly one hour old, survives a start request. -/
theorem start_sweeps_witness :
    mapGet (rewardStart sampleStore 1700003600000 "z9y8x7w6v" shopBody).2 sampleId
      = some sampleSession :=
  (start_sweeps sampleStore (by decide) 1700003600000 "z9y8x7w6v" shopBody
    (generateSessionId 1700003600000 "z9y8x7w6v") (by decide)).2 sampleId sampleSession
    1700000000000 rfl (by decide) rfl (by decide)

/-- **C9, where the code departs from it.** A start request at clock value
1700000000000 with the `timestamp` -8640000000000001 succeeds and the store it
returns holds the new session, whose `createdAt` lies more than one hour
before `now`: the clean-up compares `NaN` with `oneHourAgo` and deletes
nothing.  A start request two hours later leaves that session in the store as
well. -/
theorem start_keeps_unreadable :
    (rewardStart [] 1700000000000 "k3j9x2m1q" ancientBody).1 = .started sampleId ∧
    (1700000000000 : Int) - (-8640000000000001) > 60 * 60 * 1000 ∧
    (mapGet (rewardStart [] 1700000000000 "k3j9x2m1q" ancientBody).2 sampleId).map
      Session.createdAt = some (.num (-8640000000000001)) ∧
    (rewardStart ancientStore 1700007200000 "z9y8x7w6v" shopBody).1
      = .started "session_1700007200000_z9y8x7w6v" ∧
    (mapGet (rewardStart ancientStore 1700007200000 "z9y8x7w6v" shopBody).2 sampleId).map
      Session.createdAt = some (.num (-8640000000000001)) := by
  decide

/-- **C10, as the code has it.** The generated `sessionId` is computed from
the clock value and the random part alone and is not checked against the
store.  When it is not already a key, storing the new session replaces no
stored session: every session stored before is, right after the `set`, still
stored unchanged under its key, and at the end of the call it is still so
unless the clean-up deleted it as older than one hour.  Two generated ids are
equal only if both the clock values and the random parts are equal, so a
returned `sessionId` differs from every one returned by a call with another
clock value or another random part. -/
theorem start_id_fresh (m : Store) (hwf : WF m) (now : Int) (rnd pk : String)
    (ua hua : Option String) (ts : Option TimeVal) (hpk : pk ≠ "")
    (hfresh : mapGet m (generateSessionId now rnd) = none) :
    (∀ k s, mapGet m k = some s →
      mapGet (mapSet m (generateSessionId now rnd)
        (newSession (generateSessionId now rnd) pk ⟨some pk, ua, ts, hua⟩ now)) k = some s) ∧
    (∀ k s, mapGet m k = some s →
      mapGet (rewardStart m now rnd ⟨some pk, ua, ts, hua⟩).2 k
        = if tooOld now s then none else some s) ∧
    (∀ (now2 : Int) (rnd2 : String), generateSessionId now2 rnd2 = generateSessionId now rnd →
      now2 = now ∧ rnd2 = rnd) := by
  have hne : ∀ k s, mapGet m k = some s → k ≠ generateSessionId now rnd := by
    rintro k s hk rfl
    rw [hfresh] at hk
    cases hk
  refine ⟨fun k s hk => ?_, fun k s hk => ?_, fun now2 rnd2 h => generateSessionId_injective h⟩
  · rw [mapGet_set_ne _ _ _ _ (hne k s hk), hk]
  · rw [rewardStart_present m now rnd ua hua ts hpk]
    have hnd := wf_mapSet
      (v := newSession (generateSessionId now rnd) pk ⟨some pk, ua, ts, hua⟩ now)
      hwf (generateSessionId_ne_empty now rnd) hpk
    simp only []
    rw [mapGet_sweep _ hnd.1, mapGet_set_ne _ _ _ _ (hne k s hk), hk]
    by_cases h : tooOld now s = true
    · simp [Option.filter, h]
    · simp [Option.filter, h]

/-- Counterexample to C10 as stated: the id generated at clock value
1700000000000 with random part `k3j9x2m1q` is already a key of the sample
store; the start request succeeds with that id and the session stored under
it for page `home` is replaced by the new one for page `shop`.  Two start
requests in the same millisecond with the same random part return the same
`sessionId`. -/
theorem start_id_collision :
    (mapGet sampleStore (generateSessionId 1700000000000 "k3j9x2m1q")).map Session.pageKey
      = some "home" ∧
    (rewardStart sampleStore 1700000000000 "k3j9x2m1q" shopBody).1
      = .started (generateSessionId 1700000000000 "k3j9x2m1q") ∧
    (mapGet (rewardStart sampleStore 1700000000000 "k3j9x2m1q" shopBody).2
      (generateSessionId 1700000000000 "k3j9x2m1q")).map Session.pageKey = some "shop" ∧
    (rewardStart (rewardStart [] 1700000000000 "k3j9x2m1q" homeBody).2
        1700000000000 "k3j9x2m1q" shopBody).1
      = (rewardStart [] 1700000000000 "k3j9x2m1q" homeBody).1 := by
  decide

/-- The sample session survives a start request made one millisecond after its own. -/
theorem start_id_fresh_witness :
    mapGet (rewardStart sampleStore 1700000000001 "k3j9x2m1q" shopBody).2 sampleId
      = some sampleSession :=
  (start_id_fresh sampleStore (by decide) 1700000000001 "k3j9x2m1q" "shop" none none none
    (by decide) (by decide)).2.1 sampleId sampleSession rfl

/-! ## Frame properties of the three handlers -/

/-- Under a key other than the generated one, `/reward/start` leaves nothing
or what was there. -/
theorem mapGet_rewardStart_ne (m : Store) (now : Int) (rnd : String) (body : StartBody)
    (k : String) (s1 : Session) (hk : k ≠ generateSessionId now rnd)
    (h : mapGet (rewardStart m now rnd body).2 k = some s1) : mapGet m k = some s1 := by
  unfold rewardStart at h
  split at h
  · exact h
  · rename_i pk hpk
    simp only [] at h
    rcases mapGet_sweep_cases
      (mapSet m (generateSessionId now rnd)
        (newSession (generateSessionId now rnd) pk body now)) now k with h1 | h1
    · rw [h1] at h; cases h
    · rw [h1, mapGet_set_ne _ _ _ _ hk] at h
      exact h

/-- Under a key that held a confirmed session, `/reward/confirm` leaves nothing
or that session. -/
theorem mapGet_rewardConfirm_confirmed (m : Store) (now : Int) (body : ConfirmBody)
    (k : String) (s s1 : Session) (hget : mapGet m k = some s) (hc : s.confirmed = true)
    (h : mapGet (rewardConfirm m now body).2 k = some s1) : s1 = s := by
  rcases rewardConfirm_store_cases m now body with h1 | ⟨sid, -, h1⟩ | h1
  · rw [h1, hget] at h
    exact (Option.some.inj h).symm
  · rw [h1] at h
    by_cases hk : k = sid
    · subst hk
      rw [mapGet_delete_self] at h
      cases h
    · rw [mapGet_delete_ne _ _ _ hk, hget] at h
      exact (Option.some.inj h).symm
  · obtain ⟨sid, pk, s0, -, -, -, -, hget0, -, hconf0, -, -, -, heq⟩ := rewardConfirm_ok_inv h1
    rw [heq] at h
    by_cases hk : k = sid
    · subst hk
      rw [hget] at hget0
      cases hget0
      rw [hc] at hconf0
      cases hconf0
    · rw [mapGet_set_ne _ _ _ _ hk, hget] at h
      exact (Option.some.inj h).symm

theorem rewardStatus_snd (m : Store) (q : String) : (rewardStatus m q).2 = m := by
  unfold rewardStatus
  split <;> rfl

/-- **C11, as the code has it.** A session stored with `confirmed = true`
that is still stored after a confirmation or a status query, with any
arguments at any time, is then the very same record, so it has
`confirmed = true` and the same `confirmedAt`; the same holds after a start
request whose generated `sessionId` is not the key of that session.  A start
request that generates that key again replaces the record by an unconfirmed
one. -/
theorem confirmed_stays (m : Store) (now : Int) (sid : String) (s : Session)
    (hget : mapGet m sid = some s) (hc : s.confirmed = true) :
    (∀ (cb : ConfirmBody) (s1 : Session),
      mapGet (rewardConfirm m now cb).2 sid = some s1 →
        s1 = s ∧ s1.confirmed = true ∧ s1.confirmedAt = s.confirmedAt) ∧
    (∀ (q : String) (s1 : Session),
      mapGet (rewardStatus m q).2 sid = some s1 →
        s1 = s ∧ s1.confirmed = true ∧ s1.confirmedAt = s.confirmedAt) ∧
    (∀ (rnd : String) (sb : StartBody) (s1 : Session), generateSessionId now rnd ≠ sid →
      mapGet (rewardStart m now rnd sb).2 sid = some s1 →
        s1 = s ∧ s1.confirmed = true ∧ s1.confirmedAt = s.confirmedAt) := by
  refine ⟨?_, ?_, ?_⟩
  · intro cb s1 h
    have := mapGet_rewardConfirm_confirmed m now cb sid s s1 hget hc h
    subst this
    exact ⟨rfl, hc, rfl⟩
  · intro q s1 h
    rw [rewardStatus_snd, hget] at h
    cases h
    exact ⟨rfl, hc, rfl⟩
  · intro rnd sb s1 hne h
    have h2 := mapGet_rewardStart_ne m now rnd sb sid s1 (fun e => hne e.symm) h
    rw [hget] at h2
    cases h2
    exact ⟨rfl, hc, rfl⟩

/-- Counterexample to C11 as stated: the store holds the sample session,
confirmed; a start request at the clock value and with the random part of its
`sessionId` succeeds, and afterwards that `sessionId` is still a key but the
record under it is unconfirmed and has no `confirmedAt`. -/
theorem start_unconfirms_on_collision :
    (mapGet confirmedStore sampleId).map Session.confirmed = some true ∧
    (mapGet confirmedStore sampleId).map Session.confirmedAt = some (some 1700000000000) ∧
    (rewardStart confirmedStore 1700000000000 "k3j9x2m1q" shopBody).1 = .started sampleId ∧
    (mapGet (rewardStart confirmedStore 1700000000000 "k3j9x2m1q" shopBody).2 sampleId).map
      Session.confirmed = some false ∧
    (mapGet (rewardStart confirmedStore 1700000000000 "k3j9x2m1q" shopBody).2 sampleId).map
      Session.confirmedAt = some none := by
  decide

/-- The confirmed sample session is still there, as it was, after a second
confirmation and after a start request one millisecond later. -/
theorem confirmed_stays_witness :
    mapGet (rewardConfirm confirmedStore 1700000060000
      ⟨some sampleId, some "home", some 45, none⟩).2 sampleId = some confirmedSession ∧
    mapGet (rewardStart confirmedStore 1700000000001 "k3j9x2m1q" shopBody).2 sampleId
      = some confirmedSession ∧
    (∀ s1 : Session,
      mapGet (rewardConfirm confirmedStore 1700000060000
        ⟨some sampleId, some "home", some 45, none⟩).2 sampleId = some s1 →
        s1 = confirmedSession ∧ s1.confirmed = true ∧
          s1.confirmedAt = confirmedSession.confirmedAt) ∧
    (∀ s1 : Session,
      mapGet (rewardStart confirmedStore 1700000000001 "k3j9x2m1q" shopBody).2 sampleId
        = some s1 →
        s1 = confirmedSession ∧ s1.confirmed = true ∧
          s1.confirmedAt = confirmedSession.confirmedAt) :=
  ⟨by decide, by decide,
    fun s1 => (confirmed_stays confirmedStore 1700000060000 sampleId confirmedSession rfl rfl).1
      ⟨some sampleId, some "home", some 45, none⟩ s1,
    fun s1 => (confirmed_stays confirmedStore 1700000000001 sampleId confirmedSession rfl rfl).2.2
      "k3j9x2m1q" shopBody s1 (by decide)⟩

theorem rewardStart_not_ok {m : Store} {now : Int} {rnd : String} {body : StartBody}
    (h : (rewardStart m now rnd body).1.ok = false) :
    rewardStart m now rnd body = (.missingField, m) ∧ strTruthy body.pageKey = none := by
  unfold rewardStart at h ⊢
  split at h
  · rename_i hpk
    exact ⟨rfl, hpk⟩
  · exact absurd h (by simp [Response.ok, Response.code])

/-- The outcomes of `/reward/confirm`: a rejection with status 400, 403, 404 or
409 and the store untouched, or Gone with the named session deleted, or
success. -/
theorem rewardConfirm_code_cases (m : Store) (now : Int) (body : ConfirmBody) :
    ((rewardConfirm m now body).2 = m ∧
      ((rewardConfirm m now body).1.code = 400 ∨ (rewardConfirm m now body).1.code = 403 ∨
        (rewardConfirm m now body).1.code = 404 ∨ (rewardConfirm m now body).1.code = 409)) ∨
    (∃ sid, body.sessionId = some sid ∧ rewardConfirm m now body = (.gone, mapDelete m sid)) ∨
    (rewardConfirm m now body).1.ok = true := by
  unfold rewardConfirm
  split
  · rename_i sid pk hsid hpk
    split
    · exact Or.inl ⟨rfl, Or.inr (Or.inr (Or.inl rfl))⟩
    · split
      · exact Or.inl ⟨rfl, Or.inr (Or.inl rfl)⟩
      · split
        · exact Or.inl ⟨rfl, Or.inr (Or.inr (Or.inr rfl))⟩
        · split
          · exact Or.inr (Or.inl ⟨sid, (strTruthy_some hsid).1, rfl⟩)
          · split
            · exact Or.inl ⟨rfl, Or.inl rfl⟩
            · split
              · exact Or.inl ⟨rfl, Or.inl rfl⟩
              · exact Or.inr (Or.inr rfl)
  · exact Or.inl ⟨rfl, Or.inl rfl⟩

/-- **C12.** A start request, a confirmation or a status query that fails with
status 400 (missing field, insufficient `watchTime`, insufficient elapsed
time), 403, 404 or 409 returns the store exactly as it was; a confirmation
that fails with 410 takes the named session out of the store and leaves every
other key as it was.  These are all the failures there are. -/
theorem failures_atomic (m : Store) (now : Int) :
    (∀ (rnd : String) (sb : StartBody), (rewardStart m now rnd sb).1.ok = false →
      (rewardStart m now rnd sb).1.code = 400 ∧ (rewardStart m now rnd sb).2 = m) ∧
    (∀ cb : ConfirmBody,
      ((rewardConfirm m now cb).1.code = 400 ∨ (rewardConfirm m now cb).1.code = 403 ∨
        (rewardConfirm m now cb).1.code = 404 ∨ (rewardConfirm m now cb).1.code = 409) →
      (rewardConfirm m now cb).2 = m) ∧
    (∀ cb : ConfirmBody, (rewardConfirm m now cb).1.code = 410 →
      ∃ sid, cb.sessionId = some sid ∧ (rewardConfirm m now cb).1 = .gone ∧
        mapGet (rewardConfirm m now cb).2 sid = none ∧
        ∀ k, k ≠ sid → mapGet (rewardConfirm m now cb).2 k = mapGet m k) ∧
    (∀ cb : ConfirmBody, (rewardConfirm m now cb).1.ok = false →
      (rewardConfirm m now cb).1.code = 400 ∨ (rewardConfirm m now cb).1.code = 403 ∨
      (rewardConfirm m now cb).1.code = 404 ∨ (rewardConfirm m now cb).1.code = 409 ∨
      (rewardConfirm m now cb).1.code = 410) ∧
    (∀ q : String, (rewardStatus m q).2 = m) := by
  refine ⟨?_, ?_, ?_, ?_, rewardStatus_snd m⟩
  · intro rnd sb h
    obtain ⟨h1, -⟩ := rewardStart_not_ok h
    rw [h1]
    exact ⟨rfl, rfl⟩
  · intro cb h
    rcases rewardConfirm_code_cases m now cb with ⟨h1, -⟩ | ⟨sid, -, h1⟩ | h1
    · exact h1
    · rw [h1] at h
      simp [Response.code] at h
    · simp only [Response.ok, beq_iff_eq] at h1
      rw [h1] at h
      simp at h
  · intro cb h
    rcases rewardConfirm_code_cases m now cb with ⟨-, h1⟩ | ⟨sid, hsid, h1⟩ | h1
    · rw [h] at h1
      simp at h1
    · refine ⟨sid, hsid, by rw [h1], by rw [h1]; exact mapGet_delete_self m sid, ?_⟩
      intro k hk
      rw [h1]
      exact mapGet_delete_ne m sid k hk
    · simp only [Response.ok, beq_iff_eq] at h1
      rw [h1] at h
      simp at h
  · intro cb h
    rcases rewardConfirm_code_cases m now cb with ⟨-, h1⟩ | ⟨sid, hsid, h1⟩ | h1
    · rcases h1 with h1 | h1 | h1 | h1
      · exact Or.inl h1
      · exact Or.inr (Or.inl h1)
      · exact Or.inr (Or.inr (Or.inl h1))
      · exact Or.inr (Or.inr (Or.inr (Or.inl h1)))
    · rw [h1]
      exact Or.inr (Or.inr (Or.inr (Or.inr rfl)))
    · rw [h] at h1
      cases h1

/-- Failures on the sample store: a watch time of 29 leaves the store as it
was, and a confirmation after the window takes the sample session out. -/
theorem failures_atomic_witness :
    (rewardConfirm sampleStore 1700000060000 ⟨some sampleId, some "home", some 29, none⟩).2
      = sampleStore ∧
    (∃ sid, (some sampleId : Option String) = some sid ∧
      (rewardConfirm sampleStore 1700000600001 ⟨some sampleId, some "home", none, none⟩).1
        = .gone ∧
      mapGet (rewardConfirm sampleStore 1700000600001
        ⟨some sampleId, some "home", none, none⟩).2 sid = none ∧
      ∀ k, k ≠ sid →
        mapGet (rewardConfirm sampleStore 1700000600001
          ⟨some sampleId, some "home", none, none⟩).2 k = mapGet sampleStore k) :=
  ⟨(failures_atomic sampleStore 1700000060000).2.1
      ⟨some sampleId, some "home", some 29, none⟩ (Or.inl (by decide)),
    (failures_atomic sampleStore 1700000600001).2.2.1
      ⟨some sampleId, some "home", none, none⟩ (by decide)⟩

/-- **C13.** A status query returns the store as it was, whatever the age and
the state of the session; it fails with NotFound (404) exactly when the
`sessionId` is not a key of the store, and otherwise it returns the
`sessionId`, `pageKey`, `confirmed`, `createdAt` and `confirmedAt` of the
stored session. -/
theorem status_read_only (m : Store) (q : String) :
    (rewardStatus m q).2 = m ∧
    ((rewardStatus m q).1 = .notFound ↔ mapGet m q = none) ∧
    ((rewardStatus m q).1.code = 404 ↔ mapGet m q = none) ∧
    (∀ s, mapGet m q = some s →
      (rewardStatus m q).1
        = .status s.sessionId s.pageKey s.confirmed s.createdAt s.confirmedAt) := by
  refine ⟨rewardStatus_snd m q, ?_, ?_, ?_⟩
  · unfold rewardStatus
    cases h : mapGet m q <;> simp
  · unfold rewardStatus
    cases h : mapGet m q <;> simp [Response.code]
  · intro s hs
    unfold rewardStatus
    simp [hs]

/-- **C14, as the code has it.** For a request whose body was parsed: a start
request fails with status 400 exactly when `pageKey` is absent or empty; a
confirmation fails with status 400, the store untouched, whenever `sessionId`
or `pageKey` is absent or empty, whatever the store holds; and a confirmation
with both present whose `sessionId` is not a key of the store fails with
NotFound (404) for every `pageKey`, `watchTime` and `adStartTime`.  A start
request or a confirmation without a parsed body is answered 500, the store
untouched. -/
theorem input_validation (m : Store) (now : Int) :
    (∀ (rnd : String) (sb : StartBody),
      (postRewardStart m now rnd (some sb)).1.code = 400 ↔
        (sb.pageKey = none ∨ sb.pageKey = some "")) ∧
    (∀ cb : ConfirmBody,
      (cb.sessionId = none ∨ cb.sessionId = some "" ∨ cb.pageKey = none ∨ cb.pageKey = some "") →
      postRewardConfirm m now (some cb) = (.missingField, m) ∧
      (postRewardConfirm m now (some cb)).1.code = 400) ∧
    (∀ (sid pk : String) (w a : Option ℚ), sid ≠ "" → pk ≠ "" → mapGet m sid = none →
      postRewardConfirm m now (some ⟨some sid, some pk, w, a⟩) = (.notFound, m) ∧
      (postRewardConfirm m now (some ⟨some sid, some pk, w, a⟩)).1.code = 404) ∧
    (∀ rnd : String, postRewardStart m now rnd none = (.serverError, m) ∧
      (postRewardStart m now rnd none).1.code = 500) ∧
    (postRewardConfirm m now none = (.serverError, m) ∧
      (postRewardConfirm m now none).1.code = 500) := by
  refine ⟨?_, ?_, ?_, fun _ => ⟨rfl, rfl⟩, rfl, rfl⟩
  · intro rnd sb
    show (rewardStart m now rnd sb).1.code = 400 ↔ _
    unfold rewardStart
    cases hp : sb.pageKey with
    | none => simp [strTruthy, Response.code]
    | some p =>
      by_cases hp0 : p = ""
      · simp [strTruthy, hp0, Response.code]
      · simp [strTruthy, hp0, Response.code]
  · intro cb h
    have : postRewardConfirm m now (some cb) = (.missingField, m) := by
      show rewardConfirm m now cb = _
      unfold rewardConfirm
      rcases h with h | h | h | h
      · simp [h, strTruthy]
      · simp [h, strTruthy]
      · simp [h, strTruthy]
      · simp [h, strTruthy]
    rw [this]
    exact ⟨rfl, rfl⟩
  · intro sid pk w a hsid hpk hget
    have : postRewardConfirm m now (some ⟨some sid, some pk, w, a⟩) = (.notFound, m) := by
      simp only [postRewardConfirm, rewardConfirm, strTruthy_of_ne hsid, strTruthy_of_ne hpk,
        hget]
    rw [this]
    exact ⟨rfl, rfl⟩

/-- Counterexample to C14 as stated: a start request and a confirmation that
arrive without a parsed body have no `pageKey`, and the answer is 500, not
400. -/
theorem post_without_body_answers_500 :
    (postRewardStart sampleStore 1700000060000 "z9y8x7w6v" none).1.code = 500 ∧
    (postRewardStart sampleStore 1700000060000 "z9y8x7w6v" none).1.code ≠ 400 ∧
    (postRewardConfirm sampleStore 1700000060000 none).1.code = 500 ∧
    (postRewardConfirm sampleStore 1700000060000 none).1.code ≠ 400 := by
  decide

/-- Input validation on the sample store: a confirmation without `pageKey`,
and one for a `sessionId` that was never issued. -/
theorem input_validation_witness :
    postRewardConfirm sampleStore 1700000060000 (some ⟨some sampleId, none, some 45, none⟩)
      = (.missingField, sampleStore) ∧
    postRewardConfirm sampleStore 1700000060000
        (some ⟨some "session_1_zzz", some "home", some 45, none⟩)
      = (.notFound, sampleStore) :=
  ⟨((input_validation sampleStore 1700000060000).2.1 ⟨some sampleId, none, some 45, none⟩
      (Or.inr (Or.inr (Or.inl rfl)))).1,
    ((input_validation sampleStore 1700000060000).2.2.1 "session_1_zzz" "home" (some 45) none
      (by decide) (by decide) (by decide)).1⟩

/-- A status query for the sample session ten minutes and one millisecond after
its creation, and one for an unknown `sessionId`. -/
theorem status_read_only_witness :
    rewardStatus sampleStore sampleId
      = (.status sampleId "home" false (.iso 1700000000000) none, sampleStore) ∧
    (rewardStatus sampleStore "session_1_zzz").1 = .notFound :=
  ⟨Prod.ext ((status_read_only sampleStore sampleId).2.2.2 sampleSession rfl)
      (status_read_only sampleStore sampleId).1,
    (status_read_only sampleStore "session_1_zzz").2.1.2 rfl⟩

/-! ## Deletion -/

theorem nanAgeGt_true_iff {now c : Int} {t : TimeVal} :
    nanAgeGt now t.getTime c = true ↔ ∃ x, t.getTime = some x ∧ now - x > c := by
  unfold nanAgeGt
  cases t.getTime with
  | none => simp
  | some x => simp

/-- The failed age check behind a Gone. -/
theorem rewardConfirm_gone_inv {m : Store} {now : Int} {body : ConfirmBody}
    (h : (rewardConfirm m now body).1 = .gone) :
    ∃ sid s, body.sessionId = some sid ∧ mapGet m sid = some s ∧
      nanAgeGt now s.createdAt.getTime maxAge = true ∧
      rewardConfirm m now body = (.gone, mapDelete m sid) := by
  unfold rewardConfirm at h ⊢
  split at h
  · rename_i sid pk hsid hpk
    split at h
    · cases h
    · rename_i s hget
      split at h
      · cases h
      · rename_i hown
        split at h
        · cases h
        · rename_i hconf
          split at h
          · rename_i hage
            refine ⟨sid, s, (strTruthy_some hsid).1, hget, hage, ?_⟩
            simp only [hsid, hpk, hget, hown, hconf, hage]
            simp
          · split at h
            · cases h
            · split at h
              · cases h
              · cases h
  · cases h

/-- **C15, as the code has it.** A key of the store that is no longer a key
after an operation was taken out in one of three ways: by a successful start
request at time `now`, its session being created more than one hour before
`now`; by a successful start request that generated that very key again, for
a new session whose `timestamp` lies more than one hour before `now`; or by a
confirmation naming that key at a time `now` more than 10 minutes after the
session was created.  A status query takes no key out. -/
theorem destroyed_only_expired (m : Store) (hwf : WF m) (now : Int) (k : String) (s : Session)
    (hget : mapGet m k = some s) :
    (∀ (rnd : String) (sb : StartBody), mapGet (rewardStart m now rnd sb).2 k = none →
      (rewardStart m now rnd sb).1.ok = true ∧
      ((k ≠ generateSessionId now rnd ∧
          ∃ x, s.createdAt.getTime = some x ∧ now - x > 60 * 60 * 1000) ∨
        (k = generateSessionId now rnd ∧
          ∃ t x, sb.timestamp = some t ∧ t.getTime = some x ∧ now - x > 60 * 60 * 1000))) ∧
    (∀ cb : ConfirmBody, mapGet (rewardConfirm m now cb).2 k = none →
      cb.sessionId = some k ∧ (rewardConfirm m now cb).1 = .gone ∧
      ∃ x, s.createdAt.getTime = some x ∧ now - x > 10 * 60 * 1000) ∧
    (∀ q : String, mapGet (rewardStatus m q).2 k = some s) := by
  refine ⟨?_, ?_, ?_⟩
  · intro rnd sb h
    cases hok : (rewardStart m now rnd sb).1.ok with
    | false =>
      rw [(rewardStart_not_ok hok).1, hget] at h
      cases h
    | true =>
      refine ⟨rfl, ?_⟩
      obtain ⟨bpk, ua, ts, hua⟩ := sb
      have hpk : ∃ pk, bpk = some pk ∧ pk ≠ "" := by
        unfold rewardStart at hok
        split at hok
        · exact absurd hok (by simp [Response.ok, Response.code])
        · rename_i pk hpk
          exact ⟨pk, (strTruthy_some hpk).1, (strTruthy_some hpk).2⟩
      obtain ⟨pk, rfl, hpk0⟩ := hpk
      by_cases hk : k = generateSessionId now rnd
      · right
        refine ⟨hk, ?_⟩
        subst hk
        rw [mapGet_rewardStart_self m hwf now rnd ua hua ts hpk0] at h
        split at h
        · rename_i hold
          obtain ⟨x, hx, hgt⟩ := tooOld_iff.1 hold
          cases ts with
          | none => simp [newSession, TimeVal.getTime] at hx; omega
          | some t =>
            by_cases htr : t.truthy = true
            · simp only [newSession, htr, if_true] at hx
              exact ⟨t, x, rfl, hx, hgt⟩
            · simp [newSession, htr, TimeVal.getTime] at hx
              omega
        · cases h
      · left
        refine ⟨hk, ?_⟩
        rw [rewardStart_present m now rnd ua hua ts hpk0] at h
        have hnd := wf_mapSet
          (v := newSession (generateSessionId now rnd) pk ⟨some pk, ua, ts, hua⟩ now)
          hwf (generateSessionId_ne_empty now rnd) hpk0
        simp only [] at h
        rw [mapGet_sweep _ hnd.1, mapGet_set_ne _ _ _ _ hk, hget] at h
        by_cases hold : tooOld now s = true
        · exact tooOld_iff.1 hold
        · simp [Option.filter, hold] at h
  · intro cb h
    rcases rewardConfirm_store_cases m now cb with h1 | ⟨sid, hsid, h1⟩ | h1
    · rw [h1, hget] at h
      cases h
    · have hg : (rewardConfirm m now cb).1 = .gone := by rw [h1]
      obtain ⟨sid2, s2, hsid2, hget2, hage2, -⟩ := rewardConfirm_gone_inv hg
      rw [hsid] at hsid2
      cases hsid2
      rw [h1] at h
      by_cases hk : k = sid
      · subst hk
        rw [hget] at hget2
        cases hget2
        exact ⟨hsid, hg, by simpa [maxAge] using nanAgeGt_true_iff.1 hage2⟩
      · rw [mapGet_delete_ne _ _ _ hk, hget] at h
        cases h
    · obtain ⟨sid, pk, s0, -, -, -, -, hget0, -, -, -, -, -, heq⟩ := rewardConfirm_ok_inv h1
      rw [heq, mapGet_set] at h
      split at h
      · cases h
      · rw [hget] at h
        cases h
  · intro q
    rw [rewardStatus_snd]
    exact hget

/-- Counterexample to C15 as stated: the store holds the sample session,
created at the clock value of the request; a start request that generates its
`sessionId` again, with a `timestamp` of 1, succeeds and afterwards that
`sessionId` is not a key of the store, though the session it named was not
more than one hour old. -/
theorem start_collision_destroys_fresh :
    mapGet sampleStore sampleId = some sampleSession ∧
    sampleSession.createdAt.getTime = some 1700000000000 ∧
    (rewardStart sampleStore 1700000000000 "k3j9x2m1q"
      ⟨some "shop", none, some (.num 1), none⟩).1 = .started sampleId ∧
    mapGet (rewardStart sampleStore 1700000000000 "k3j9x2m1q"
      ⟨some "shop", none, some (.num 1), none⟩).2 sampleId = none := by
  decide

/-- The sample session taken out by a start request one hour and a millisecond
after its creation, and by a confirmation after its window. -/
theorem destroyed_only_expired_witness :
    mapGet (rewardStart sampleStore 1700003600001 "z9y8x7w6v" shopBody).2 sampleId = none ∧
    (∃ x, sampleSession.createdAt.getTime = some x ∧
      (1700000600001 : Int) - x > 10 * 60 * 1000) :=
  ⟨by decide,
    ((destroyed_only_expired sampleStore (by decide) 1700000600001 sampleId sampleSession
      rfl).2.1 ⟨some sampleId, some "home", none, none⟩ (by decide)).2.2⟩

/-! ## What a confirmation records -/

/-- **C16, as the code has it.** After a successful confirmation the stored
session's `watchTime` is the supplied one and is null when none was supplied;
its `adStartTime` is the supplied one when that is not `0`, and is null when
none was supplied or `0` was (`adStartTime || null`); and the `watchTime` of
the response is the one recorded in the session. -/
theorem confirm_records (m : Store) (now : Int) (cb : ConfirmBody)
    (hok : (rewardConfirm m now cb).1.ok = true) :
    ∃ sid s1, cb.sessionId = some sid ∧ mapGet (rewardConfirm m now cb).2 sid = some s1 ∧
      s1.watchTime = cb.watchTime ∧
      (∀ a, cb.adStartTime = some a → a ≠ 0 → s1.adStartTime = some a) ∧
      ((cb.adStartTime = none ∨ cb.adStartTime = some 0) → s1.adStartTime = none) ∧
      (rewardConfirm m now cb).1 = .confirmedOk sid now s1.watchTime := by
  obtain ⟨sid, pk, s, hsid, -, -, -, -, -, -, -, hw, -, heq⟩ := rewardConfirm_ok_inv hok
  have hwt := numTruthy_of_watch_ok hw
  refine ⟨sid,
    { s with
      confirmed := true
      confirmedAt := some now
      watchTime := numTruthy cb.watchTime
      adStartTime := numTruthy cb.adStartTime }, hsid, ?_, hwt, ?_, ?_, ?_⟩
  · rw [heq]
    exact mapGet_set_self _ _ _
  · intro a ha ha0
    simp [ha, numTruthy, ha0]
  · rintro (ha | ha) <;> simp [ha, numTruthy]
  · rw [heq]
    simp only [hwt]

/-- Counterexample to C16 as stated: a confirmation of the sample session with
`adStartTime = 0` succeeds and the stored `adStartTime` is null, not `0`. -/
theorem confirm_adStartTime_zero_not_recorded :
    (rewardConfirm sampleStore 1700000060000
      ⟨some sampleId, some "home", some 45, some 0⟩).1
      = .confirmedOk sampleId 1700000060000 (some 45) ∧
    (mapGet (rewardConfirm sampleStore 1700000060000
      ⟨some sampleId, some "home", some 45, some 0⟩).2 sampleId).map Session.adStartTime
      = some none := by
  decide

/-- The sample session confirmed with a watch time of 45 and an ad started 40
seconds earlier. -/
theorem confirm_records_witness :
    ∃ sid s1, (some sampleId : Option String) = some sid ∧
      mapGet (rewardConfirm sampleStore 1700000060000
        ⟨some sampleId, some "home", some 45, some 1700000020000⟩).2 sid = some s1 ∧
      s1.watchTime = some 45 ∧ s1.adStartTime = some 1700000020000 := by
  obtain ⟨sid, s1, h1, h2, h3, h4, -, -⟩ :=
    confirm_records sampleStore 1700000060000
      ⟨some sampleId, some "home", some 45, some 1700000020000⟩
      (by
        simp [rewardConfirm, strTruthy, sampleStore, sampleId, sampleSession, mapGet, nanAgeGt,
          TimeVal.getTime, maxAge, Option.filter, MINIMUM_WATCH_TIME, numTruthy, Response.ok,
          Response.code]
        norm_num)
  exact ⟨sid, s1, h1, h2, h3, h4 1700000020000 rfl (by norm_num)⟩

/-! ## Coherence of the stored records -/

theorem coherent_mapSet {m : Store} (h : ∀ e ∈ m, Coherent e.2) {v : Session}
    (hv : Coherent v) (id : String) : ∀ e ∈ mapSet m id v, Coherent e.2 := by
  unfold mapSet
  split
  · intro e he
    obtain ⟨e0, he0, rfl⟩ := List.mem_map.1 he
    by_cases h1 : e0.1 = id
    · simpa [h1] using hv
    · simpa [h1] using h e0 he0
  · intro e he
    rcases List.mem_append.1 he with h1 | h1
    · exact h e h1
    · simp only [List.mem_singleton] at h1
      subst h1
      exact hv

theorem coherent_mapDelete {m : Store} (h : ∀ e ∈ m, Coherent e.2) (id : String) :
    ∀ e ∈ mapDelete m id, Coherent e.2 :=
  fun e he => h e (List.mem_of_mem_filter he)

theorem coherent_foldl_delete (p : Session → Bool) (l : Store) {acc : Store}
    (h : ∀ e ∈ acc, Coherent e.2) :
    ∀ e ∈ l.foldl (fun a e => if p e.2 then mapDelete a e.1 else a) acc, Coherent e.2 := by
  induction l generalizing acc with
  | nil => simpa using h
  | cons e l ih =>
    simp only [List.foldl_cons]
    apply ih
    split
    · exact coherent_mapDelete h _
    · exact h

theorem coherent_rewardStart {m : Store} (h : ∀ e ∈ m, Coherent e.2) (now : Int) (rnd : String)
    (body : StartBody) : ∀ e ∈ (rewardStart m now rnd body).2, Coherent e.2 := by
  unfold rewardStart
  split
  · exact h
  · rename_i pk hpk
    exact coherent_foldl_delete (fun s => nanLt s.createdAt.getTime (now - 60 * 60 * 1000)) _
      (coherent_mapSet h (v := newSession (generateSessionId now rnd) pk body now)
        ⟨rfl, fun _ => ⟨rfl, rfl⟩⟩ _)

theorem coherent_rewardConfirm {m : Store} (h : ∀ e ∈ m, Coherent e.2) (now : Int)
    (body : ConfirmBody) : ∀ e ∈ (rewardConfirm m now body).2, Coherent e.2 := by
  rcases rewardConfirm_store_cases m now body with h1 | ⟨sid, -, h1⟩ | h1
  · rw [h1]; exact h
  · rw [h1]; exact coherent_mapDelete h _
  · obtain ⟨sid, pk, s, -, -, -, -, -, -, -, -, -, -, heq⟩ := rewardConfirm_ok_inv h1
    rw [heq]
    exact coherent_mapSet h ⟨rfl, fun hc => by cases hc⟩ _

/-- Every record of every store the server can be in is coherent. -/
theorem coherent_of_reachable {m : Store} (h : Reachable m) : ∀ e ∈ m, Coherent e.2 := by
  induction h with
  | init => simp
  | start _ now rnd body ih => exact coherent_rewardStart ih now rnd body
  | confirm _ now body ih => exact coherent_rewardConfirm ih now body
  | status _ sessionId ih => rw [rewardStatus_snd]; exact ih

/-- **C17.** In every store reachable from the empty one by start requests,
confirmations and status queries, every stored session has a `confirmedAt`
exactly when `confirmed` is true; a status query on it therefore reports
`confirmedAt = null` exactly when it reports `confirmed = false`; and an
unconfirmed session has neither `watchTime` nor `adStartTime`. -/
theorem reachable_coherent (m : Store) (hr : Reachable m) (k : String) (s : Session)
    (hget : mapGet m k = some s) :
    (s.confirmedAt.isSome = true ↔ s.confirmed = true) ∧
    (s.confirmedAt = none ↔ s.confirmed = false) ∧
    (∃ c ca, (rewardStatus m k).1 = .status s.sessionId s.pageKey c s.createdAt ca ∧
      (ca = none ↔ c = false)) ∧
    (s.confirmed = false → s.watchTime = none ∧ s.adStartTime = none) ∧
    ((s.watchTime ≠ none ∨ s.adStartTime ≠ none) → s.confirmed = true) := by
  have hc := coherent_of_reachable hr (k, s) (mem_of_mapGet hget)
  obtain ⟨h1, h2⟩ := hc
  simp only at h1 h2
  have h3 : s.confirmedAt = none ↔ s.confirmed = false := by
    rw [← h1]
    cases s.confirmedAt <;> simp
  refine ⟨by rw [h1], h3, ⟨s.confirmed, s.confirmedAt, ?_, h3⟩, h2, ?_⟩
  · unfold rewardStatus
    simp [hget]
  · intro h
    cases hcf : s.confirmed with
    | true => rfl
    | false =>
      obtain ⟨hw, ha⟩ := h2 hcf
      rcases h with h | h
      · exact absurd hw h
      · exact absurd ha h

/-- The store after a start request and a confirmation of the session it made. -/
theorem reachable_coherent_witness :
    ((sampleSession.confirmedAt = none ↔ sampleSession.confirmed = false) ∧
      (sampleSession.confirmed = false →
        sampleSession.watchTime = none ∧ sampleSession.adStartTime = none)) ∧
    (confirmedSession.confirmedAt.isSome = true ↔ confirmedSession.confirmed = true) := by
  have hr1 : Reachable sampleStore :=
    Reachable.start Reachable.init 1700000000000 "k3j9x2m1q"
      ⟨some "home", none, none, some "Mozilla/5.0"⟩
  have hr2 : Reachable confirmedStore :=
    Reachable.confirm hr1 1700000000000 ⟨some sampleId, some "home", none, none⟩
  have h1 := reachable_coherent sampleStore hr1 sampleId sampleSession rfl
  have h2 := reachable_coherent confirmedStore hr2 sampleId confirmedSession rfl
  exact ⟨⟨h1.2.1, h1.2.2.2.1⟩, h2.1⟩

/-! ## The confirmation window and the client's timestamp -/

/-- Under the generated key, `/reward/start` leaves nothing or the new session. -/
theorem mapGet_rewardStart_new (m : Store) (now : Int) (rnd : String) {pk : String}
    (ua hua : Option String) (ts : Option TimeVal) (hpk : pk ≠ "") (s : Session)
    (h : mapGet (rewardStart m now rnd ⟨some pk, ua, ts, hua⟩).2 (generateSessionId now rnd)
      = some s) :
    s = newSession (generateSessionId now rnd) pk ⟨some pk, ua, ts, hua⟩ now := by
  rw [rewardStart_present m now rnd ua hua ts hpk] at h
  simp only [] at h
  rcases mapGet_sweep_cases
    (mapSet m (generateSessionId now rnd)
      (newSession (generateSessionId now rnd) pk ⟨some pk, ua, ts, hua⟩ now)) now
    (generateSessionId now rnd) with h1 | h1
  · rw [h1] at h; cases h
  · rw [h1, mapGet_set_self] at h
    exact (Option.some.inj h).symm

/-- **C19, as the code has it.** The confirmation window is counted from the
session's `createdAt`, not from the start request.  For a start request made
at time `t0` and a confirmation of the returned `sessionId` made at time `t1`
on the resulting store: if the request carried no `timestamp`, or a falsy one,
and `t1 - t0` exceeds 10 minutes, the confirmation does not succeed; if it
carried a truthy `timestamp` that reads as the time `x` and `t1 - x` exceeds
10 minutes, the confirmation does not succeed. -/
theorem confirm_window_from_createdAt (m : Store) (t0 t1 : Int) (rnd pk : String)
    (ua hua : Option String) (ts : Option TimeVal) (cb : ConfirmBody) (hpk : pk ≠ "")
    (hsid : cb.sessionId = some (generateSessionId t0 rnd)) :
    ((ts = none ∨ ∃ t, ts = some t ∧ t.truthy = false) → t1 - t0 > 10 * 60 * 1000 →
      (rewardConfirm (rewardStart m t0 rnd ⟨some pk, ua, ts, hua⟩).2 t1 cb).1.ok = false) ∧
    (∀ t x, ts = some t → t.truthy = true → t.getTime = some x → t1 - x > 10 * 60 * 1000 →
      (rewardConfirm (rewardStart m t0 rnd ⟨some pk, ua, ts, hua⟩).2 t1 cb).1.ok = false) := by
  have key : ∀ x, (newSession (generateSessionId t0 rnd) pk
        ⟨some pk, ua, ts, hua⟩ t0).createdAt.getTime = some x →
      t1 - x > 10 * 60 * 1000 →
      (rewardConfirm (rewardStart m t0 rnd ⟨some pk, ua, ts, hua⟩).2 t1 cb).1.ok = false := by
    intro x hx hgt
    cases hok : (rewardConfirm (rewardStart m t0 rnd ⟨some pk, ua, ts, hua⟩).2 t1 cb).1.ok with
    | false => rfl
    | true =>
      obtain ⟨sid, pk1, s, hsid1, -, -, -, hget, -, -, hage, -⟩ := rewardConfirm_ok_inv hok
      rw [hsid] at hsid1
      cases hsid1
      have hs := mapGet_rewardStart_new m t0 rnd ua hua ts hpk s hget
      subst hs
      rw [nanAgeGt_true_of_gt hx hgt] at hage
      cases hage
  constructor
  · intro hts hgt
    apply key t0 _ hgt
    rcases hts with rfl | ⟨t, rfl, htr⟩
    · rfl
    · simp [newSession, htr, TimeVal.getTime]
  · intro t x hts htr hx hgt
    subst hts
    apply key x _ hgt
    simp [newSession, htr, hx]

/-- Counterexample to C19 as stated: a start request at time 1700000000000
carrying a `timestamp` one hour ahead, then a confirmation of the returned
`sessionId` eleven minutes after the start request, which succeeds; and the
same with a `timestamp` that is not a date, confirmed a day later. -/
theorem confirm_after_window_with_future_timestamp :
    (rewardStart [] 1700000000000 "k3j9x2m1q"
      ⟨some "home", none, some (.num 1700003600000), none⟩).1 = .started sampleId ∧
    (1700000660000 : Int) - 1700000000000 > 10 * 60 * 1000 ∧
    (rewardConfirm
      (rewardStart [] 1700000000000 "k3j9x2m1q"
        ⟨some "home", none, some (.num 1700003600000), none⟩).2
      1700000660000 ⟨some sampleId, some "home", none, none⟩).1
      = .confirmedOk sampleId 1700000660000 none ∧
    (rewardConfirm
      (rewardStart [] 1700000000000 "k3j9x2m1q"
        ⟨some "home", none, some (.bad "soon"), none⟩).2
      1700086400000 ⟨some sampleId, some "home", none, none⟩).1
      = .confirmedOk sampleId 1700086400000 none := by
  decide

/-- A start request without a `timestamp`, confirmed ten minutes and a
millisecond later. -/
theorem confirm_window_from_createdAt_witness :
    (rewardConfirm (rewardStart [] 1700000000000 "k3j9x2m1q" homeBody).2 1700000600001
      ⟨some sampleId, some "home", some 45, none⟩).1.ok = false :=
  (confirm_window_from_createdAt [] 1700000000000 1700000600001 "k3j9x2m1q" "home" none none
    none ⟨some sampleId, some "home", some 45, none⟩ (by decide) (by decide)).1
    (Or.inl rfl) (by decide)

/-! ## The elapsed time reported on rejection -/

theorem numTruthy_filter_some {a : Option ℚ} {p : ℚ → Bool} {x : ℚ}
    (h : (numTruthy a).filter p = some x) : a = some x ∧ x ≠ 0 ∧ p x = true := by
  cases a with
  | none => simp [numTruthy] at h
  | some y =>
    by_cases hy : y = 0
    · simp [numTruthy, hy] at h
    · by_cases hp : p y = true
      · simp [numTruthy, hy, Option.filter, hp] at h
        subst h
        exact ⟨rfl, hy, hp⟩
      · simp [numTruthy, hy, Option.filter, hp] at h

/-- The failed check behind a rejection for insufficient elapsed time. -/
theorem rewardConfirm_elapsed_inv {m : Store} {now : Int} {body : ConfirmBody} {e : Int} {r : ℚ}
    (h : (rewardConfirm m now body).1 = .elapsedTooShort e r) :
    ∃ a, body.adStartTime = some a ∧ a ≠ 0 ∧ (now - a) / 1000 < (30 : ℚ) ∧
      e = mathRound ((now - a) / 1000) ∧ r = 30 := by
  unfold rewardConfirm at h
  split at h
  · split at h
    · cases h
    · split at h
      · cases h
      · split at h
        · cases h
        · split at h
          · cases h
          · split at h
            · cases h
            · split at h
              · rename_i a ha
                obtain ⟨h1, h2, h3⟩ := numTruthy_filter_some ha
                simp only [Response.elapsedTooShort.injEq] at h
                refine ⟨a, h1, h2, ?_, h.1.symm, ?_⟩
                · simpa [MINIMUM_WATCH_TIME] using h3
                · rw [← h.2]; rfl
              · cases h
  · cases h

/-- **C20, as the code has it.** When a confirmation is rejected for
insufficient elapsed time, `minimumRequired` is 30 and the reported
`elapsedTime`, which is `Math.round` of the elapsed seconds, is at most 30; it
is strictly less than 30 exactly when the elapsed time is below 29.5 seconds,
and it is 30 for an elapsed time in `[29.5, 30)`. -/
theorem elapsed_report_le (m : Store) (now : Int) (cb : ConfirmBody) (e : Int) (r : ℚ)
    (h : (rewardConfirm m now cb).1 = .elapsedTooShort e r) :
    r = 30 ∧ (e : ℚ) ≤ r ∧
    ∃ a, cb.adStartTime = some a ∧ (now - a) / 1000 < (30 : ℚ) ∧
      e = mathRound ((now - a) / 1000) ∧
      ((e : ℚ) < r ↔ (now - a) / 1000 < (59 / 2 : ℚ)) ∧
      ((59 / 2 : ℚ) ≤ (now - a) / 1000 → e = 30) := by
  obtain ⟨a, ha, -, hlt, he, hr⟩ := rewardConfirm_elapsed_inv h
  have h31 : e < 31 := by
    rw [he, mathRound, Int.floor_lt]
    push_cast
    linarith
  have hiff : e < 30 ↔ ((now : ℚ) - a) / 1000 < 59 / 2 := by
    rw [he, mathRound, Int.floor_lt]
    push_cast
    constructor <;> intro h0 <;> linarith
  subst hr
  refine ⟨rfl, ?_, a, ha, hlt, he, ?_, ?_⟩
  · have : e ≤ 30 := by omega
    exact_mod_cast this
  · rw [← hiff]
    constructor
    · intro h0
      exact_mod_cast h0
    · intro h0
      exact_mod_cast h0
  · intro hge
    have : ¬ e < 30 := fun h0 => absurd (hiff.1 h0) (not_lt.2 hge)
    omega

/-- Counterexample to C20 as stated: the sample session confirmed 29.5 seconds
after the ad started is rejected for insufficient elapsed time, and the
reported `elapsedTime` is 30, which is not less than the `minimumRequired` 30. -/
theorem elapsed_report_not_strict :
    (((1700000060000 : Int) : ℚ) - 1700000030500) / 1000 < 30 ∧
    (rewardConfirm sampleStore 1700000060000
      ⟨some sampleId, some "home", none, some 1700000030500⟩).1 = .elapsedTooShort 30 30 := by
  refine ⟨by norm_num, ?_⟩
  simp [rewardConfirm, strTruthy, sampleStore, sampleId, sampleSession, mapGet, nanAgeGt,
    TimeVal.getTime, maxAge, Option.filter, MINIMUM_WATCH_TIME, numTruthy]
  norm_num [mathRound]

/-- The sample session confirmed 29.4 seconds after the ad started: the report
is 29, not above 30. -/
theorem elapsed_report_le_witness :
    (rewardConfirm sampleStore 1700000060000
      ⟨some sampleId, some "home", none, some 1700000030600⟩).1 = .elapsedTooShort 29 30 ∧
    ((29 : Int) : ℚ) ≤ 30 := by
  have hrej : (rewardConfirm sampleStore 1700000060000
      ⟨some sampleId, some "home", none, some 1700000030600⟩).1 = .elapsedTooShort 29 30 := by
    simp [rewardConfirm, strTruthy, sampleStore, sampleId, sampleSession, mapGet, nanAgeGt,
      TimeVal.getTime, maxAge, Option.filter, MINIMUM_WATCH_TIME, numTruthy]
    norm_num [mathRound]
  exact ⟨hrej, (elapsed_report_le sampleStore 1700000060000
    ⟨some sampleId, some "home", none, some 1700000030600⟩ 29 30 hrej).2.1⟩

end RewardServer
